import Mathlib

/-!
A verification development for the memex repository: a shallow embedding of
the multi-tenant screenshot-memory server (prometheus_server.py,
instance_manager.py, chat_handler.py, the tool modules) and of the edge sync
client (cli/commands/sync.py) and edge capture writer (refinery/run.py),
together with theorems settling the specification claims about them.

Conventions of the embedding:
  - Python dicts used as finite maps become Lean functions into Option
    (with Function.update) or association lists, as noted at each definition.
  - Machine floats that only ever hold exact arithmetic on timestamps,
    weights and distances are embedded as rationals.
  - External services (ChromaDB, the Ollama validator, the Anthropic API)
    are embedded at their call boundary: their responses are data passed in.
  - Fallible IO is embedded with Except / Option.
-/

namespace Memex

/-! ## JSON scalars and sync documents (prometheus_server.py lines 491 to 582) -/

/-- A JSON value as carried in a sync document's metadata dict.  Mirrors the
Python `Dict[str, Any]` payload: strings, ints, floats, bools, null, arrays
and nested objects. -/
inductive JVal where
  | s (v : String)
  | i (v : Int)
  | f (v : ℚ)
  | b (v : Bool)
  | null
  | arr (l : List JVal)
  | obj (l : List (String × JVal))
deriving BEq, Repr

/-- The Python test `isinstance(v, (str, int, float, bool))` from
prometheus_server.py line 561. -/
def JVal.isScalar : JVal → Bool
  | .s _ => true
  | .i _ => true
  | .f _ => true
  | .b _ => true
  | _ => false

/-- One entry of the `documents` array of a POST /{instance}/sync body
(`SyncDocument` in prometheus_server.py lines 491 to 495).  `raw` is the
serialized form of `raw_json` that `json.dump` writes to disk. -/
structure SyncDoc where
  id : String
  text : String
  metadata : List (String × JVal)
  raw : String
deriving Repr

/-- Server-side state touched by the sync endpoint: the instance's `ocr/`
directory (filename stem to file content) and its Chroma collection.
The collection keeps its entries as a map plus its id set, so that
`count()` is the card of the id set. -/
structure ChromaState where
  entries : String → Option (String × List (String × JVal))
  idSet : Finset String

/-- State of one instance's record store plus vector index. -/
structure SyncState where
  disk : String → Option String
  chroma : ChromaState

/-- `collection.upsert` for a single id: add-or-replace, per the ChromaDB
client contract used at prometheus_server.py lines 566 to 570. -/
def chromaUpsert (st : ChromaState) (id text : String)
    (meta : List (String × JVal)) : ChromaState :=
  { entries := Function.update st.entries id (some (text, meta))
    idSet := insert id st.idSet }

/-- `collection.count()`. -/
def ChromaState.count (st : ChromaState) : ℕ := st.idSet.card

/-- Metadata flattening from prometheus_server.py lines 559 to 563: only
scalar-valued keys are kept. -/
def flattenMeta (m : List (String × JVal)) : List (String × JVal) :=
  m.filter (fun p => p.2.isScalar)

/-- The disk-write loop of sync_documents (lines 536 to 543): each document's
raw_json is written to `<id>.json`, later documents overwriting earlier ones
with the same id.  (IO failure of an individual write is modelled elsewhere,
in the file-write model; here each write lands.) -/
def syncWriteAll (disk : String → Option String) (docs : List SyncDoc) :
    String → Option String :=
  docs.foldl (fun d doc => Function.update d doc.id (some doc.raw)) disk

/-- Truthiness of `s.strip()` in Python, negated: a string strips to empty
exactly when every character is whitespace. -/
def isBlank (s : String) : Bool :=
  s.data.all (fun c => c.isWhitespace)

/-- The batch built at lines 553 to 563: documents whose text is non-blank
after `strip()`. -/
def syncBatch (docs : List SyncDoc) : List SyncDoc :=
  docs.filter (fun doc => ! isBlank doc.text)

/-- The batch upsert of lines 565 to 571. -/
def syncIndexAll (st : ChromaState) (docs : List SyncDoc) : ChromaState :=
  (syncBatch docs).foldl
    (fun c doc => chromaUpsert c doc.id doc.text (flattenMeta doc.metadata)) st

/-- The JSON body returned by sync_documents (lines 577 to 582). -/
structure SyncResponse where
  status : String
  written : ℕ
  indexed : ℕ
  errors : List String
deriving Repr, DecidableEq

/-- The core of `POST /{instance}/sync` (prometheus_server.py lines 528 to
582), after instance lookup, authentication and body validation: write every
document to the record store, batch-upsert the non-blank ones into the
vector collection, and report counts. -/
def syncDocuments (st : SyncState) (docs : List SyncDoc) :
    SyncState × SyncResponse :=
  let disk' := syncWriteAll st.disk docs
  let chroma' := syncIndexAll st.chroma docs
  (⟨disk', chroma'⟩,
   { status := "ok"
     written := docs.length
     indexed := (syncBatch docs).length
     errors := [] })

/-- `list_ids()` over the record store: the set of ids present on disk
(sync_status, prometheus_server.py lines 600 to 605, reads the directory;
in this embedding the directory is the `disk` map and id membership is
`(disk id).isSome`). -/
def diskHasId (st : SyncState) (id : String) : Prop := (st.disk id).isSome

/-! ## Instance manager (instance_manager.py) -/

/-- The fixed tool-name set of the registry dict that the source builds at
instance_manager.py lines 75 to 85. -/
def fixedToolNames : List String :=
  ["search-screenshots", "what-can-i-do", "get-stats", "activity-graph",
   "time-range-summary", "sample-time-range", "vector-search-windowed",
   "search-recent-relevant", "daily-summary"]

/-- A Python exception as raised out of MemexInstance.call_tool. -/
inductive PyExc where
  | attributeError (msg : String)
  | valueError (msg : String)
deriving DecidableEq, Repr

/-- The attribute state of a MemexInstance object.  `__init__`
(instance_manager.py lines 40 to 44) sets config, name, ocr_data_dir and
`_chroma_collection = None`; it does NOT set `tools`: the block that would
build the tool table (lines 59 to 87) sits inside get_chroma_collection
AFTER the unconditional `return self._chroma_collection` at line 57, so it
is dead code and `self.tools` is never assigned on any path. -/
structure MemexInstance where
  name : String
  chromaConnected : Bool
  toolsTable : Option (List String)
deriving Repr

/-- `MemexInstance.__init__` (lines 40 to 44). -/
def MemexInstance.mkInstance (name : String) : MemexInstance :=
  { name := name, chromaConnected := false, toolsTable := none }

/-- `get_chroma_collection` (lines 46 to 57): lazily connects and returns at
line 57; the statements after the return (lines 59 to 87), which would have
assigned `self.tools`, never execute, so `toolsTable` is left untouched. -/
def MemexInstance.getChromaCollection (inst : MemexInstance) : MemexInstance :=
  { inst with chromaConnected := true }

/-- What a successful dispatch in call_tool would produce: the tool object
key that `self.tools[name]` selects. -/
structure ToolDispatch where
  toolName : String
deriving DecidableEq, Repr

/-- `MemexInstance.call_tool` (lines 209 to 272).  The first statement
evaluates `name not in self.tools`; when the `tools` attribute does not
exist this raises AttributeError before any dispatch.  When it exists,
an unknown name raises `ValueError("Unknown tool: ...")` (line 212) and a
known name dispatches to the mapped tool object. -/
def MemexInstance.callTool (inst : MemexInstance) (name : String) :
    Except PyExc ToolDispatch :=
  match inst.toolsTable with
  | none =>
      .error (.attributeError
        "MemexInstance object has no attribute tools")
  | some table =>
      if name ∈ table then .ok { toolName := name }
      else .error (.valueError ("Unknown tool: " ++ name))

/-- n applications of get_chroma_collection to a fresh instance. -/
def MemexInstance.afterCalls (name : String) : ℕ → MemexInstance
  | 0 => MemexInstance.mkInstance name
  | n + 1 => (MemexInstance.afterCalls name n).getChromaCollection

/-! ## Edge sync client: batch splitting (cli/commands/sync.py lines 197 to 237) -/

/-- A document as posted by the edge client (only identity matters to the
delivery claim). -/
structure EdgeDoc where
  id : String
deriving DecidableEq, Repr

/-- The synthetic sync server of the batch-splitting property: it answers
413 to every batch strictly larger than `k` documents and accepts (indexing
every document of) any batch of at most `k`. -/
def serverAccepts (k : ℕ) (batch : List EdgeDoc) : Bool :=
  batch.length ≤ k

/-- `_send_batch` (cli/commands/sync.py lines 197 to 237) run against the
synthetic size-capped server.  On acceptance the client reads back
`(indexed, len(errors))` from the response, here `(batch.length, 0)`.  On
413 with more than one document it splits at `len(batch) // 2` and sends
both halves recursively; on 413 with a single document it returns that
document as an error (line 228).  The exponential-backoff path for
non-413 failures never fires against this deterministic server.  The third
component collects what the server actually received, in order. -/
def sendBatch (k : ℕ) (batch : List EdgeDoc) : ℕ × ℕ × List EdgeDoc :=
  if serverAccepts k batch then (batch.length, 0, batch)
  else if _h : batch.length > 1 then
    let mid := batch.length / 2
    let r1 := sendBatch k (batch.take mid)
    let r2 := sendBatch k (batch.drop mid)
    (r1.1 + r2.1, r1.2.1 + r2.2.1, r1.2.2 ++ r2.2.2)
  else (0, batch.length, [])
termination_by batch.length
decreasing_by
  · simp only [List.length_take]
    omega
  · simp only [List.length_drop]
    omega

/-! ## Record writes on disk (prometheus_server.py lines 536 to 543 and
refinery/run.py lines 123 to 131) -/

/-- Both record writers open the destination `<id>.json` directly with mode
"w" and stream the serialized JSON into it.  Opening with "w" truncates the
file; the serializer then emits the content in pieces.  This models the
write as a step count: step 0 is the open-and-truncate, steps 1..n emit the
chunks.  `completed` is how many steps ran before a failure (completed
greater than the chunk count means full success).  The result is the file
content afterwards: untouched if the open itself failed, otherwise the
concatenation of the chunks emitted so far. -/
def directFileWrite (old : Option String) (chunks : List String)
    (completed : ℕ) : Option String :=
  if completed = 0 then old
  else some (String.join (chunks.take (completed - 1)))

/-- The server-side record write of sync_documents (lines 536 to 543):
`open(file_path, "w")` then `json.dump(doc.raw_json, f, indent=2)`. -/
def syncRecordWrite (old : Option String) (chunks : List String)
    (completed : ℕ) : Option String :=
  directFileWrite old chunks completed

/-- The edge-side OCR record write of FlowRunner.process_ocr_background
(refinery/run.py lines 123 to 131): `open(ocr_filepath, "w", ...)` then
`json.dump(result, f, ...)`. -/
def ocrRecordWrite (old : Option String) (chunks : List String)
    (completed : ℕ) : Option String :=
  directFileWrite old chunks completed

/-- The property the specification asserts of `put(record)`: write-temp-
then-rename atomicity, under which any failed write leaves the previously
stored content for the id unchanged and leaves no partial file. -/
def atomicWriteContract (write : Option String → List String → ℕ → Option String) : Prop :=
  ∀ old chunks completed, completed ≤ chunks.length →
    write old chunks completed = old

/-! ## Server HTTP pipelines (prometheus_server.py route handlers).

Each handler is embedded as a function from a request model to a response
plus the ordered list of side operations it performed.  The request model
carries the externally determined facts a handler consults: whether the
instance exists, the Content-Length header, whether the bearer token
authenticates, what the rate limiter would answer, whether the body parses,
and the outcomes of the external validator and tool calls. -/

/-- Side operations a handler can perform, in the order performed. -/
inductive Effect where
  | sizeCheck
  | authCheck
  | rateCheck
  | parseBody
  | validatorCall
  | toolInvoke
  | diskWrite
  | chromaOp
  | sessionLookup
  | fileServe
deriving DecidableEq, Repr

/-- 1 MiB: MAX_REQUEST_SIZE at prometheus_server.py line 104. -/
def maxRequestSize : ℕ := 1024 * 1024

/-- Outcome of the external AI validator call, at its HTTP boundary. -/
inductive ValidatorOutcome where
  | allow
  | deny (reason : String)
  | timedOut
  | unreachable
deriving DecidableEq, Repr

/-- Modelled from the spec: ai_validator.py is not under src/ (only its
construction at prometheus_server.py lines 168 to 173 and its call at line
785 are).  Per the specification of C7 (AI Validator), `validate` returns
an (allow, reason) pair and MUST fail closed on timeout, denying with
reason "validator_timeout"; an unreachable validator upstream is treated
the same way. -/
def validateCall : ValidatorOutcome → Bool × String
  | .allow => (true, "")
  | .deny r => (false, r)
  | .timedOut => (false, "validator_timeout")
  | .unreachable => (false, "validator_timeout")

/-- The parsed JSON-RPC body of an MCP request, as read at lines 738 to 740. -/
structure RpcBody where
  method : String
  hasId : Bool
  toolName : Option String
deriving Repr

/-- An MCP request together with the environment facts its processing
consults. -/
structure McpRequest where
  instanceKnown : Bool
  contentLength : Option ℕ
  bodySize : ℕ
  authOk : Bool
  authError : String
  rateAllowed : Bool
  retryAfter : ℕ
  parsedBody : Option RpcBody
  validator : ValidatorOutcome
  toolOutcome : Except String String
deriving Repr

/-- The JSON payload shape of an MCP response body (only the fields the
claims speak about). -/
inductive McpBody where
  | plainError (message : String)
  | rpcError (code : Int) (message : String)
  | rpcToolResult (isError : Bool) (content : String)
  | rpcOther
  | empty
deriving Repr

/-- An HTTP response from the MCP endpoint. -/
structure McpResponse where
  status : ℕ
  body : McpBody
deriving Repr

/-- The size-check condition at prometheus_server.py lines 705 to 706: a
Content-Length header is present and exceeds MAX_REQUEST_SIZE.  With no
header the check passes regardless of the actual body size. -/
def headerTooLarge (contentLength : Option ℕ) : Bool :=
  match contentLength with
  | some n => decide (maxRequestSize < n)
  | none => false

/-- The deny payload built at prometheus_server.py lines 788 to 801:
json.dumps of an object carrying the error banner, the validator reason and
the tool name. -/
def denyContent (reason tool : String) : String :=
  "Request denied by security policy; reason=" ++ reason ++ "; tool=" ++ tool

/-- `POST /{instance}/mcp` (prometheus_server.py lines 684 to 849) for a
tools/call request, following the source order exactly: instance lookup
(404), Content-Length size check (413), authentication (401), rate limit
(429), body parse (400), notification check (202), then for tools/call:
missing-name check, AI validation (denial becomes a 200 whose result has
isError true), then the tool invocation whose exception also becomes a 200
with isError true. -/
def mcpEndpoint (r : McpRequest) : McpResponse × List Effect :=
  if ¬ r.instanceKnown then
    ({ status := 404, body := .rpcError (-32600) "Unknown instance" }, [])
  else if headerTooLarge r.contentLength then
    ({ status := 413, body := .plainError "Request too large" }, [.sizeCheck])
  else if ¬ r.authOk then
    ({ status := 401, body := .rpcError (-32000) r.authError },
     [.sizeCheck, .authCheck])
  else if ¬ r.rateAllowed then
    ({ status := 429, body := .plainError "Rate limit exceeded" },
     [.sizeCheck, .authCheck, .rateCheck])
  else
    match r.parsedBody with
    | none =>
        ({ status := 400, body := .rpcError (-32700) "Parse error" },
         [.sizeCheck, .authCheck, .rateCheck, .parseBody])
    | some body =>
        if ¬ body.hasId then
          ({ status := 202, body := .empty },
           [.sizeCheck, .authCheck, .rateCheck, .parseBody])
        else if body.method = "tools/call" then
          match body.toolName with
          | none =>
              ({ status := 200, body := .rpcError (-32602) "Missing tool name" },
               [.sizeCheck, .authCheck, .rateCheck, .parseBody])
          | some tool =>
              let v := validateCall r.validator
              if ¬ v.1 then
                ({ status := 200,
                   body := .rpcToolResult true (denyContent v.2 tool) },
                 [.sizeCheck, .authCheck, .rateCheck, .parseBody,
                  .validatorCall])
              else
                match r.toolOutcome with
                | .ok res =>
                    ({ status := 200, body := .rpcToolResult false res },
                     [.sizeCheck, .authCheck, .rateCheck, .parseBody,
                      .validatorCall, .toolInvoke])
                | .error e =>
                    ({ status := 200, body := .rpcToolResult true e },
                     [.sizeCheck, .authCheck, .rateCheck, .parseBody,
                      .validatorCall, .toolInvoke])
        else
          ({ status := 200, body := .rpcOther },
           [.sizeCheck, .authCheck, .rateCheck, .parseBody])

/-- A request to `POST /{instance}/sync` with its environment facts. -/
structure SyncRequest where
  instanceKnown : Bool
  contentLength : Option ℕ
  bodySize : ℕ
  authOk : Bool
  authError : String
  parsedDocs : Option (List SyncDoc)
deriving Repr

/-- An HTTP response from the sync endpoint. -/
structure SyncHttpResponse where
  status : ℕ
  payload : Option SyncResponse
deriving Repr

/-- `POST /{instance}/sync` (prometheus_server.py lines 502 to 582):
server-init check elided (server running), then instance lookup (404),
authentication (401), body parse (400), then the write/upsert core.  The
handler performs no size check and never consults the rate limiter. -/
def syncEndpoint (r : SyncRequest) (st : SyncState) :
    SyncHttpResponse × SyncState × List Effect :=
  if ¬ r.instanceKnown then
    ({ status := 404, payload := none }, st, [])
  else if ¬ r.authOk then
    ({ status := 401, payload := none }, st, [.authCheck])
  else
    match r.parsedDocs with
    | none => ({ status := 400, payload := none }, st, [.authCheck, .parseBody])
    | some docs =>
        let (st', resp) := syncDocuments st docs
        ({ status := 200, payload := some resp }, st',
         [.authCheck, .parseBody, .diskWrite, .chromaOp])

/-- `GET /{instance}/sync/status` (lines 585 to 611): instance lookup,
authentication, then a directory scan.  No rate-limit consultation. -/
def syncStatusEndpoint (r : SyncRequest) (_st : SyncState) :
    SyncHttpResponse × List Effect :=
  if ¬ r.instanceKnown then ({ status := 404, payload := none }, [])
  else if ¬ r.authOk then ({ status := 401, payload := none }, [.authCheck])
  else ({ status := 200, payload := none }, [.authCheck, .diskWrite])

/-- A request to the chat endpoints with its environment facts. -/
structure ChatRequest where
  instanceKnown : Bool
  message : String
  sessionId : Option String
deriving Repr

/-- `POST /{instance}/chat` and `POST /chat` (lines 616 to 668) at the
routing level: instance lookup (404 on the per-instance route), then the
empty-message check (400), then the SSE stream.  Neither route performs a
size check, an auth check, or a rate-limit check. -/
def chatEndpointStatus (perInstance : Bool) (r : ChatRequest) :
    ℕ × List Effect :=
  if perInstance ∧ ¬ r.instanceKnown then (404, [])
  else if isBlank r.message then (400, [.parseBody])
  else (200, [.parseBody, .sessionLookup])

/-- `GET /pages/{slug}` (lines 440 to 450): slug sanitization (400), file
existence (404), then the HTML is served.  `exists` stands for the
filesystem fact. -/
def pagesEndpoint (slugSafe pageFound : Bool) : ℕ × List Effect :=
  if ¬ slugSafe then (400, [])
  else if ¬ pageFound then (404, [])
  else (200, [.fileServe])

/-- `GET /screenshots/{instance}/{filename}` (lines 472 to 486): filename
sanitization (400), file existence (404), then the image is served. -/
def screenshotsEndpoint (nameSafe fileFound : Bool) : ℕ × List Effect :=
  if ¬ nameSafe then (400, [])
  else if ¬ fileFound then (404, [])
  else (200, [.fileServe])

/-! ## Chat sessions (chat_handler.py lines 26 to 96 and
prometheus_server.py lines 642 to 668) -/

/-- One turn of a chat session's history. -/
structure ChatMsg where
  role : String
  content : String
deriving DecidableEq, Repr

/-- A ChatSession object (chat_handler.py lines 26 to 46).  Wall-clock
instants are rationals standing for `time.time()` seconds. -/
structure ChatSession where
  id : String
  instanceName : String
  messages : List ChatMsg
  lastActive : ℚ
deriving DecidableEq, Repr

/-- `ChatSession.is_expired` (lines 44 to 46): inactive for strictly more
than 3600 seconds. -/
def ChatSession.expired (now : ℚ) (s : ChatSession) : Bool :=
  decide (3600 < now - s.lastActive)

/-- Python dict lookup over an association list (first binding wins; the
dict invariant keeps keys unique). -/
def alookup : List (String × α) → String → Option α
  | [], _ => none
  | p :: t, k => if p.1 = k then some p.2 else alookup t k

/-- The handler's session dict, as an association list keyed by session id. -/
structure ChatTable where
  sessions : List (String × ChatSession)
deriving Repr

/-- `_cleanup_sessions` (lines 73 to 79): delete every expired session. -/
def cleanupSessions (now : ℚ) (t : ChatTable) : ChatTable :=
  { sessions := t.sessions.filter (fun p => ! (p.2.expired now)) }

/-- `ChatSession.__init__` (lines 29 to 34) with the uuid4 value passed in. -/
def freshSession (freshId instanceName : String) (now : ℚ) : ChatSession :=
  { id := freshId, instanceName := instanceName, messages := [],
    lastActive := now }

/-- `get_or_create_session` (lines 81 to 90): purge expired sessions, then
reuse the session when the given id is truthy and present, refreshing its
last_active; otherwise create, register and return a fresh session. -/
def getOrCreateSession (now : ℚ) (freshId : String) (t : ChatTable)
    (sessionId : Option String) (instanceName : String) :
    ChatSession × ChatTable :=
  let t1 := cleanupSessions now t
  let create : ChatSession × ChatTable :=
    let s := freshSession freshId instanceName now
    (s, { sessions := (s.id, s) :: t1.sessions })
  match sessionId with
  | none => create
  | some sid =>
      if sid = "" then create
      else
        match alookup t1.sessions sid with
        | some s =>
            let s' := { s with lastActive := now }
            (s', { sessions :=
                     t1.sessions.map (fun p => if p.1 = sid then (sid, s') else p) })
        | none => create

/-- A server-sent event of the chat stream (chat_handler.py chat loop and
the event_stream wrappers in prometheus_server.py). -/
inductive SSEEvent where
  | session (sessionId : String)
  | text (t : String)
  | toolCall (id name : String)
  | toolResult (id name view : String)
  | pageCreated (url title : String)
  | sseError (e : String)
  | done
deriving DecidableEq, Repr

/-- The data `POST /{instance}/chat` hands back: the session used and the
head of the SSE stream (the event_stream generator at prometheus_server.py
lines 663 to 666 yields the `session` event before anything from
`chat_handler.chat`). -/
structure ChatStreamHead where
  firstEvent : SSEEvent
  sessionUsed : ChatSession
deriving Repr

/-- `POST /{instance}/chat` (prometheus_server.py lines 642 to 668):
instance lookup (404), read message and session_id from the body, reject a
blank message (400), get or create the session, then stream, first event
being `session` with the session id. -/
def instanceChat (now : ℚ) (freshId : String) (r : ChatRequest)
    (t : ChatTable) : Except ℕ (ChatStreamHead × ChatTable) :=
  if ¬ r.instanceKnown then .error 404
  else if isBlank r.message then .error 400
  else
    let (s, t') := getOrCreateSession now freshId t r.sessionId "instance"
    .ok ({ firstEvent := .session s.id, sessionUsed := s }, t')

/-! ## ISO-8601 parsing in the time-filtered tools.

Python strings are embedded as lists of characters, and
`datetime.fromisoformat` is modelled on the canonical subset the tools
exchange: `YYYY-MM-DD` and `YYYY-MM-DDTHH:MM:SS` (zero-padded, no
fractional seconds, no offset).  On strings outside the subset the model
returns none just as fromisoformat raises ValueError; in particular a
string containing two `T` separators is rejected by both. -/

/-- Characters of a Python string. -/
abbrev PyStr := List Char

/-- Characters of a literal. -/
def chars (s : String) : PyStr := s.data

/-- Split on a separator character, Python str.split semantics: n
separators yield n+1 (possibly empty) pieces. -/
def splitOnC (c : Char) : List Char → List (List Char)
  | [] => [[]]
  | x :: xs =>
      if x = c then [] :: splitOnC c xs
      else
        match splitOnC c xs with
        | [] => [[x]]
        | p :: ps => (x :: p) :: ps

/-- Numeric value of a digit string. -/
def digitsToNat (l : List Char) : ℕ :=
  l.foldl (fun n c => 10 * n + (c.toNat - 48)) 0

/-- A fixed-width, all-digits field of an ISO string. -/
def parseFixed (width : ℕ) (l : List Char) : Option ℕ :=
  if l.length = width ∧ l.all Char.isDigit then some (digitsToNat l) else none

/-- A parsed datetime.  The tools only compare these as instants; civil
fields suffice for the parsing claims. -/
structure PyDT where
  year : ℕ
  month : ℕ
  day : ℕ
  hour : ℕ
  minute : ℕ
  second : ℕ
deriving DecidableEq, Repr

/-- The date part `YYYY-MM-DD`. -/
def parseDateC (s : PyStr) : Option (ℕ × ℕ × ℕ) :=
  match splitOnC '-' s with
  | [y, m, d] =>
      match parseFixed 4 y, parseFixed 2 m, parseFixed 2 d with
      | some yv, some mv, some dv =>
          if 1 ≤ mv ∧ mv ≤ 12 ∧ 1 ≤ dv ∧ dv ≤ 31 then some (yv, mv, dv)
          else none
      | _, _, _ => none
  | _ => none

/-- The time part `HH:MM:SS`. -/
def parseTimeC (s : PyStr) : Option (ℕ × ℕ × ℕ) :=
  match splitOnC ':' s with
  | [h, m, sec] =>
      match parseFixed 2 h, parseFixed 2 m, parseFixed 2 sec with
      | some hv, some mv, some sv =>
          if hv ≤ 23 ∧ mv ≤ 59 ∧ sv ≤ 59 then some (hv, mv, sv)
          else none
      | _, _, _ => none
  | _ => none

/-- `datetime.fromisoformat` on the canonical subset: a date alone parses
to midnight; a date and a time joined by one `T` parse componentwise; more
than one `T` is invalid. -/
def fromIsoFormat (s : PyStr) : Option PyDT :=
  match splitOnC 'T' s with
  | [d] =>
      match parseDateC d with
      | some (y, m, dd) =>
          some { year := y, month := m, day := dd,
                 hour := 0, minute := 0, second := 0 }
      | none => none
  | [d, t] =>
      match parseDateC d, parseTimeC t with
      | some (y, m, dd), some (h, mi, sec) =>
          some { year := y, month := m, day := dd,
                 hour := h, minute := mi, second := sec }
      | _, _ => none
  | _ => none

/-- search.py lines 122 to 124 and 180: the start bound is parsed from
`start_date + "T00:00:00"` with no check for an already present time
component. -/
def searchStartBound (s : PyStr) : Option PyDT :=
  fromIsoFormat (s ++ chars "T00:00:00")

/-- search.py lines 125 to 127 and 181: the end bound is parsed from
`end_date + "T23:59:59"`. -/
def searchEndBound (s : PyStr) : Option PyDT :=
  fromIsoFormat (s ++ chars "T23:59:59")

/-- What a tool hands back, restricted to the date-handling stage: either
the error dict built by its exception handler, or the parsed bounds it
filters with. -/
inductive ToolOutcome where
  | errorResult (msg : String)
  | okBounds (startB endB : Option PyDT)
deriving DecidableEq, Repr

/-- One optional bound of _search_files: absent dates stay None, present
dates must parse or the enclosing try fails. -/
def optBound (f : PyStr → Option PyDT) : Option PyStr → Except Unit (Option PyDT)
  | none => .ok none
  | some s =>
      match f s with
      | some dt => .ok (some dt)
      | none => .error ()

/-- The date-handling stage of `_search_files` (search.py lines 173 to
237): both bounds are computed inside the try; a ValueError from either
lands in the handler at line 235 which returns the error dict. -/
def searchFilesOutcome (sd ed : Option PyStr) : ToolOutcome :=
  match optBound searchStartBound sd with
  | .error _ => .errorResult "invalid isoformat string"
  | .ok s =>
      match optBound searchEndBound ed with
      | .error _ => .errorResult "invalid isoformat string"
      | .ok e => .okBounds s e

/-- The date-handling stage of `_search_chromadb` (search.py lines 114 to
171): the same concatenation; any exception falls back to `_search_files`
(line 171), which re-raises the same parse failure into its own error
dict. -/
def searchChromadbOutcome (sd ed : Option PyStr) : ToolOutcome :=
  match optBound searchStartBound sd with
  | .error _ => searchFilesOutcome sd ed
  | .ok s =>
      match optBound searchEndBound ed with
      | .error _ => searchFilesOutcome sd ed
      | .ok e => .okBounds s e

/-- `search_screenshots` (search.py lines 98 to 112): dispatch on whether
the Chroma collection is available. -/
def searchScreenshotsOutcome (chromaAvail : Bool) (sd ed : Option PyStr) :
    ToolOutcome :=
  if chromaAvail then searchChromadbOutcome sd ed else searchFilesOutcome sd ed

/-- Does the pattern occur contiguously in the string. -/
def leadsWith : PyStr → PyStr → Bool
  | [], _ => true
  | _ :: _, [] => false
  | p :: ps, x :: xs => p = x && leadsWith ps xs

/-- Contiguous-subsequence test used to model Python `in` on strings. -/
def hasSeq (pat : PyStr) : PyStr → Bool
  | [] => pat.isEmpty
  | x :: xs => leadsWith pat (x :: xs) || hasSeq pat xs

/-- Lowercasing, for the `_parse_relative_time` keyword tests. -/
def lowerC (s : PyStr) : PyStr := s.map Char.toLower

/-- Whether `_parse_relative_time` (sampling.py lines 76 to 94) takes one
of its keyword branches (in which case it returns a datetime from the
relative clock, outside the ISO claims); with none of the keywords present
it returns None and the caller falls through to fromisoformat. -/
def isRelativeTime (s : PyStr) : Bool :=
  hasSeq (chars "yesterday") (lowerC s) || hasSeq (chars "today") (lowerC s) ||
    hasSeq (chars "last week") (lowerC s)

/-- One parsed bound of `sample_time_range`. -/
inductive BoundOutcome where
  | relative
  | parsed (dt : PyDT)
  | parseFail
deriving DecidableEq, Repr

/-- sampling.py lines 100 to 102: relative forms first, then
`fromisoformat(start_time + "T00:00:00" if 'T' not in start_time else
start_time)`. -/
def samplingStartBound (s : PyStr) : BoundOutcome :=
  if isRelativeTime s then .relative
  else
    match fromIsoFormat (if s.contains 'T' then s else s ++ chars "T00:00:00") with
    | some dt => .parsed dt
    | none => .parseFail

/-- sampling.py lines 103 to 105, the end bound with the T23:59:59
default. -/
def samplingEndBound (s : PyStr) : BoundOutcome :=
  if isRelativeTime s then .relative
  else
    match fromIsoFormat (if s.contains 'T' then s else s ++ chars "T23:59:59") with
    | some dt => .parsed dt
    | none => .parseFail

/-- vector_search.py line 49. -/
def vectorStartBound (s : PyStr) : Option PyDT :=
  fromIsoFormat (if s.contains 'T' then s else s ++ chars "T00:00:00")

/-- vector_search.py line 50. -/
def vectorEndBound (s : PyStr) : Option PyDT :=
  fromIsoFormat (if s.contains 'T' then s else s ++ chars "T23:59:59")

/-- activity.py lines 295 to 300 (time_range_summary): the default is
appended when the string has no `T` at all, counted with str.count; the
astimezone adjustment is the identity on the civil fields modelled here. -/
def activityStartBound (s : PyStr) : Option PyDT :=
  if s.count 'T' = 0 then fromIsoFormat (s ++ chars "T00:00:00")
  else fromIsoFormat s

/-- activity.py lines 302 to 307. -/
def activityEndBound (s : PyStr) : Option PyDT :=
  if s.count 'T' = 0 then fromIsoFormat (s ++ chars "T23:59:59")
  else fromIsoFormat s

/-! ## search-recent-relevant (recent_search.py lines 44 to 133).

The Chroma collection is embedded as the list of its documents; for the
one query text of a call, each document carries its embedding distance.
`query(n_results=k, where=timestamp gte start)` returns the k matching
documents of smallest distance, in ascending distance order, per the
client contract.  Timestamps: `tsNum` is the numeric metadata field the
where-filter compares, `tsKey` the display string the code reads back
(timestamp_iso, the dedup key), and `tsVal` the epoch value
`datetime.fromisoformat(tsKey)` yields, none when parsing raises.  The
3-decimal display rounding of the returned scores is not modelled. -/

/-- A collection document with its distance for the query under
consideration. -/
structure CDoc where
  text : String
  tsNum : ℚ
  tsKey : String
  tsVal : Option ℚ
  dist : ℚ
deriving DecidableEq, Repr

/-- The arguments of search_recent_relevant (lines 56 to 58). -/
structure RSearchArgs where
  maxResults : ℕ
  initialDays : ℕ
  maxDays : ℕ
  recencyWeight : ℚ
  minScore : ℚ
deriving Repr

/-- `_calculate_recency_score` (lines 44 to 54): 0.5 when the timestamp
fails to parse, 1.0 for a future timestamp, 0.0 beyond max_age_days,
otherwise the linear decay. -/
def recencyScore (maxDays : ℕ) (now : ℚ) : Option ℚ → ℚ
  | none => 1 / 2
  | some t =>
      let ageDays := (now - t) / 86400
      if ageDays < 0 then 1
      else if (maxDays : ℚ) < ageDays then 0
      else 1 - ageDays / maxDays

/-- `max(0, 1 - distance)` (line 83). -/
def relevanceScore (d : CDoc) : ℚ := max 0 (1 - d.dist)

/-- The combined score computed at line 86, with
`relevance_weight = 1.0 - recency_weight` from line 67. -/
def combinedScore (a : RSearchArgs) (now : ℚ) (d : CDoc) : ℚ :=
  relevanceScore d * (1 - a.recencyWeight) +
    recencyScore a.maxDays now d.tsVal * a.recencyWeight

/-- The recency formula exactly as the specification words it:
`max(0, 1 - age_days / max_age_days)`, for a timestamp parsed to t. -/
def specRecency (maxDays : ℕ) (now t : ℚ) : ℚ :=
  max 0 (1 - ((now - t) / 86400) / maxDays)

/-- The combined-score formula exactly as the specification words it. -/
def specCombinedScore (a : RSearchArgs) (now : ℚ) (d : CDoc) (t : ℚ) : ℚ :=
  relevanceScore d * (1 - a.recencyWeight) + specRecency a.maxDays now t * a.recencyWeight

/-- Ascending-distance comparison for the collection's ranking. -/
def distLE (x y : CDoc) : Bool := decide (x.dist ≤ y.dist)

/-- `collection.query(query_texts=[q], n_results=k, where=timestamp gte
startTs)` (lines 74 to 77): the k nearest matching documents, nearest
first. -/
def queryWindow (col : List CDoc) (k : ℕ) (startTs : ℚ) : List CDoc :=
  ((col.filter (fun d => decide (startTs ≤ d.tsNum))).mergeSort distLE).take k

/-- One iteration's harvest (lines 78 to 98): every returned document whose
combined score reaches min_score, in response order. -/
def windowScored (a : RSearchArgs) (now : ℚ) (col : List CDoc) (days : ℕ) :
    List CDoc :=
  (queryWindow col (a.maxResults * 2) (now - days * 86400)).filter
    (fun d => decide (a.minScore ≤ combinedScore a now d))

/-- The window growth of lines 101 to 104: quadruple the initial window
once, then double, always capped at max_days. -/
def nextDays (a : RSearchArgs) (cd : ℕ) : ℕ :=
  if cd = a.initialDays then min (a.initialDays * 4) a.maxDays
  else min (cd * 2) a.maxDays

/-- The expanding-window while-loop of lines 69 to 107: run while the
window is within max_days and fewer than max_results candidates have
accumulated; after each window, stop as soon as max_results is reached.
`fuel` bounds the number of iterations; every claim below holds for every
fuel, hence for however many iterations the loop actually runs. -/
def searchLoop (a : RSearchArgs) (now : ℚ) (col : List CDoc) :
    ℕ → ℕ → List CDoc → List CDoc
  | 0, _, acc => acc
  | fuel + 1, cd, acc =>
      if cd ≤ a.maxDays ∧ acc.length < a.maxResults then
        let acc' := acc ++ windowScored a now col cd
        if a.maxResults ≤ acc'.length then acc'
        else searchLoop a now col fuel (nextDays a cd) acc'
      else acc

/-- The dedup pass of lines 109 to 115: keep each timestamp string's first
occurrence, tracked with a seen-set. -/
def dedupGo : List String → List CDoc → List CDoc
  | _, [] => []
  | seen, r :: rest =>
      if r.tsKey ∈ seen then dedupGo seen rest
      else r :: dedupGo (r.tsKey :: seen) rest

/-- Descending combined-score comparison for the final sort (line 117). -/
def combGE (a : RSearchArgs) (now : ℚ) (x y : CDoc) : Bool :=
  decide (combinedScore a now y ≤ combinedScore a now x)

/-- All candidates the loop accumulates. -/
def allResults (a : RSearchArgs) (now : ℚ) (col : List CDoc) (fuel : ℕ) :
    List CDoc :=
  searchLoop a now col fuel a.initialDays []

/-- The returned results (lines 109 to 118): dedup by timestamp, sort by
combined score descending, truncate to max_results. -/
def finalResults (a : RSearchArgs) (now : ℚ) (col : List CDoc) (fuel : ℕ) :
    List CDoc :=
  ((dedupGo [] (allResults a now col fuel)).mergeSort (combGE a now)).take
    a.maxResults

/-- Well-formedness of the collection's metadata: documents sharing a
timestamp_iso string agree on its parse and on the numeric timestamp
field.  This holds of every record the sync path writes, where both fields
are derived from the one timestamp of the record
(cli/commands/sync.py lines 54 to 61). -/
def keyConsistent (col : List CDoc) : Prop :=
  ∀ x ∈ col, ∀ y ∈ col, x.tsKey = y.tsKey → x.tsVal = y.tsVal ∧ x.tsNum = y.tsNum

/-! ## Proof-side helper definitions -/

/-- Replay a list of key-value writes over a map, later writes winning. -/
def applyUpdates (f : String → Option α) (l : List (String × α)) :
    String → Option α :=
  l.foldl (fun g p => Function.update g p.1 (some p.2)) f

/-- The value the last write to key k carries, if any. -/
def lastVal (l : List (String × α)) (k : String) : Option α :=
  l.foldl (fun acc p => if p.1 = k then some p.2 else acc) none

/-- The key-value pairs that one sync batch writes to disk. -/
def diskWrites (docs : List SyncDoc) : List (String × String) :=
  docs.map (fun d => (d.id, d.raw))

/-- The key-value pairs that one sync batch upserts into the collection. -/
def indexWrites (docs : List SyncDoc) :
    List (String × (String × List (String × JVal))) :=
  (syncBatch docs).map (fun d => (d.id, (d.text, flattenMeta d.metadata)))

/-- Left-biased choice on Option. -/
def oor : Option α → Option α → Option α
  | some v, _ => some v
  | none, b => b

/-- A concrete ten-document batch, for witnessing the batch-splitting
property at the sizes of scenario S2. -/
def tenDocs : List EdgeDoc :=
  [⟨"d0"⟩, ⟨"d1"⟩, ⟨"d2"⟩, ⟨"d3"⟩, ⟨"d4"⟩, ⟨"d5"⟩, ⟨"d6"⟩, ⟨"d7"⟩,
   ⟨"d8"⟩, ⟨"d9"⟩]

/-- An empty per-instance server state. -/
def emptySyncState : SyncState :=
  { disk := fun _ => none, chroma := { entries := fun _ => none, idSet := ∅ } }

/-- A well-formed 2 MiB sync request from an authenticated client. -/
def bigBodySyncRequest : SyncRequest :=
  { instanceKnown := true, contentLength := some (2 * 1024 * 1024),
    bodySize := 2 * 1024 * 1024, authOk := true, authError := "",
    parsedDocs := some [] }

/-- A 2 MiB MCP request that declares its size. -/
def bigBodyMcpRequest : McpRequest :=
  { instanceKnown := true, contentLength := some (2 * 1024 * 1024),
    bodySize := 2 * 1024 * 1024, authOk := true, authError := "",
    rateAllowed := true, retryAfter := 0,
    parsedBody := some { method := "ping", hasId := true, toolName := none },
    validator := .allow, toolOutcome := .ok "ok" }

/-- An MCP request bearing no valid token. -/
def unauthMcpRequest : McpRequest :=
  { instanceKnown := true, contentLength := some 100, bodySize := 100,
    authOk := false, authError := "Invalid token",
    rateAllowed := true, retryAfter := 0,
    parsedBody := some { method := "ping", hasId := true, toolName := none },
    validator := .allow, toolOutcome := .ok "ok" }

/-- A tools/call MCP request arriving while the validator upstream is
timing out. -/
def timeoutMcpRequest : McpRequest :=
  { instanceKnown := true, contentLength := some 200, bodySize := 200,
    authOk := true, authError := "", rateAllowed := true, retryAfter := 0,
    parsedBody := some { method := "tools/call", hasId := true,
                         toolName := some "search-screenshots" },
    validator := .timedOut, toolOutcome := .ok "ok" }

/-- A chat table holding one session last active at time 0. -/
def staleChatTable : ChatTable :=
  { sessions := [("stale-session",
      { id := "stale-session", instanceName := "personal",
        messages := [{ role := "user", content := "earlier" }],
        lastActive := 0 })] }

/-- A chat request resuming the stale session much later. -/
def staleChatRequest : ChatRequest :=
  { instanceKnown := true, message := "hello again",
    sessionId := some "stale-session" }

/-- Arguments exercising the recency clamp: default-like weights. -/
def cfgF : RSearchArgs :=
  { maxResults := 1, initialDays := 7, maxDays := 90,
    recencyWeight := 1 / 2, minScore := 0 }

/-- A document whose timestamp lies one day in the future of the query
clock (clock drift between edge and server makes this an ordinary state). -/
def cdocF : CDoc :=
  { text := "f", tsNum := 86400, tsKey := "future",
    tsVal := some 86400, dist := 0 }

/-- Arguments exercising the dedup-and-truncate tail of the pipeline. -/
def cfgT : RSearchArgs :=
  { maxResults := 1, initialDays := 7, maxDays := 90,
    recencyWeight := 0, minScore := 0 }

/-- Two candidates with distinct timestamps, the nearer one first. -/
def cdocA : CDoc :=
  { text := "a", tsNum := 999500, tsKey := "ka",
    tsVal := some 999500, dist := 0 }

/-- The farther candidate, above min_score yet never returned. -/
def cdocB : CDoc :=
  { text := "b", tsNum := 999000, tsKey := "kb",
    tsVal := some 999000, dist := 1 / 2 }

end Memex

/-! # Theorems -/

namespace Memex

/-! ## Map-replay lemmas for the sync state -/

theorem oor_assoc (a b c : Option α) : oor (oor a b) c = oor a (oor b c) := by
  cases a <;> simp [oor]

theorem oor_none (b : Option α) : oor none b = b := rfl

theorem foldl_lastVal_or (l : List (String × α)) (k : String)
    (init : Option α) :
    l.foldl (fun acc p => if p.1 = k then some p.2 else acc) init =
      oor (lastVal l k) init := by
  induction l generalizing init with
  | nil => simp [lastVal, oor]
  | cons q t ih =>
      simp only [lastVal, List.foldl_cons] at *
      rw [ih, ih (if q.1 = k then some q.2 else none), oor_assoc]
      congr 1
      split <;> simp [oor]

theorem lastVal_or_self (l : List (String × α)) (k : String)
    (b : Option α) :
    oor (lastVal l k) (oor (lastVal l k) b) = oor (lastVal l k) b := by
  cases h : lastVal l k <;> simp [oor]

theorem applyUpdates_apply (f : String → Option α) (l : List (String × α))
    (k : String) :
    applyUpdates f l k = oor (lastVal l k) (f k) := by
  induction l generalizing f with
  | nil => simp [applyUpdates, lastVal, oor]
  | cons p t ih =>
      simp only [applyUpdates, List.foldl_cons] at *
      rw [ih]
      have hl : lastVal (p :: t) k =
          oor (lastVal t k) (if p.1 = k then some p.2 else none) := by
        simp only [lastVal, List.foldl_cons]
        exact foldl_lastVal_or t k _
      rw [hl, oor_assoc]
      congr 1
      rcases eq_or_ne p.1 k with h | h
      · subst h
        simp [Function.update, oor]
      · simp [Function.update, h, Ne.symm h, oor]

theorem applyUpdates_idem (f : String → Option α) (l : List (String × α)) :
    applyUpdates (applyUpdates f l) l = applyUpdates f l := by
  funext k
  rw [applyUpdates_apply, applyUpdates_apply]
  exact lastVal_or_self l k (f k)

theorem syncWriteAll_eq_applyUpdates (disk : String → Option String)
    (docs : List SyncDoc) :
    syncWriteAll disk docs = applyUpdates disk (diskWrites docs) := by
  simp [syncWriteAll, applyUpdates, diskWrites, List.foldl_map]

theorem chromaFold_entries (l : List SyncDoc) (st : ChromaState) :
    (l.foldl
      (fun c doc => chromaUpsert c doc.id doc.text (flattenMeta doc.metadata))
      st).entries =
      applyUpdates st.entries
        (l.map (fun d => (d.id, (d.text, flattenMeta d.metadata)))) := by
  induction l generalizing st with
  | nil => simp [applyUpdates]
  | cons d t ih =>
      simp only [List.foldl_cons, List.map_cons]
      rw [ih]
      rfl

theorem chromaFold_idSet (l : List SyncDoc) (st : ChromaState) :
    (l.foldl
      (fun c doc => chromaUpsert c doc.id doc.text (flattenMeta doc.metadata))
      st).idSet =
      l.foldl (fun S d => insert d.id S) st.idSet := by
  induction l generalizing st with
  | nil => rfl
  | cons d t ih =>
      simp only [List.foldl_cons]
      rw [ih]
      rfl

theorem foldl_insert_superset (l : List SyncDoc) (T : Finset String)
    (x : String) (hx : x ∈ T) :
    x ∈ l.foldl (fun S d => insert d.id S) T := by
  induction l generalizing T with
  | nil => exact hx
  | cons q t ih =>
      simp only [List.foldl_cons]
      exact ih _ (Finset.mem_insert_of_mem hx)

theorem mem_foldl_insert (l : List SyncDoc) (S : Finset String) (d : SyncDoc)
    (hd : d ∈ l) : d.id ∈ l.foldl (fun S d => insert d.id S) S := by
  induction l generalizing S with
  | nil => cases hd
  | cons q t ih =>
      rcases List.mem_cons.mp hd with h | h
      · subst h
        simp only [List.foldl_cons]
        exact foldl_insert_superset t _ _ (Finset.mem_insert_self d.id S)
      · exact ih _ h

theorem foldl_insert_of_mem (l : List SyncDoc) (S : Finset String)
    (h : ∀ d ∈ l, d.id ∈ S) : l.foldl (fun S d => insert d.id S) S = S := by
  induction l generalizing S with
  | nil => rfl
  | cons q t ih =>
      simp only [List.foldl_cons]
      rw [Finset.insert_eq_self.mpr (h q (List.mem_cons_self q t))]
      exact ih S (fun d hd => h d (List.mem_cons_of_mem q hd))

/-- C1: re-posting an identical sync batch is idempotent.  The second POST
reports written = N again, leaves the record store (hence list_ids) exactly
as the first POST left it, leaves every vector-collection entry unchanged,
and does not grow the collection count, the indexing being an upsert. -/
theorem sync_repost_idempotent (st : SyncState) (docs : List SyncDoc) :
    (syncDocuments (syncDocuments st docs).1 docs).2.written = docs.length ∧
    (syncDocuments (syncDocuments st docs).1 docs).1.disk =
      (syncDocuments st docs).1.disk ∧
    (syncDocuments (syncDocuments st docs).1 docs).1.chroma.idSet =
      (syncDocuments st docs).1.chroma.idSet ∧
    (syncDocuments (syncDocuments st docs).1 docs).1.chroma.count =
      (syncDocuments st docs).1.chroma.count ∧
    (syncDocuments (syncDocuments st docs).1 docs).1.chroma.entries =
      (syncDocuments st docs).1.chroma.entries ∧
    (syncDocuments (syncDocuments st docs).1 docs).2 =
      (syncDocuments st docs).2 := by
  have hdisk :
      (syncDocuments (syncDocuments st docs).1 docs).1.disk =
        (syncDocuments st docs).1.disk := by
    show syncWriteAll (syncWriteAll st.disk docs) docs =
      syncWriteAll st.disk docs
    simp only [syncWriteAll_eq_applyUpdates]
    exact applyUpdates_idem _ _
  have hentries :
      (syncDocuments (syncDocuments st docs).1 docs).1.chroma.entries =
        (syncDocuments st docs).1.chroma.entries := by
    show (syncIndexAll (syncIndexAll st.chroma docs) docs).entries =
      (syncIndexAll st.chroma docs).entries
    unfold syncIndexAll
    simp only [chromaFold_entries]
    exact applyUpdates_idem _ _
  have hids :
      (syncDocuments (syncDocuments st docs).1 docs).1.chroma.idSet =
        (syncDocuments st docs).1.chroma.idSet := by
    show (syncIndexAll (syncIndexAll st.chroma docs) docs).idSet =
      (syncIndexAll st.chroma docs).idSet
    unfold syncIndexAll
    rw [chromaFold_idSet, chromaFold_idSet]
    exact foldl_insert_of_mem _ _ (fun d hd => mem_foldl_insert _ _ _ hd)
  refine ⟨rfl, hdisk, hids, ?_, hentries, rfl⟩
  show (syncIndexAll (syncIndexAll st.chroma docs) docs).idSet.card =
    (syncIndexAll st.chroma docs).idSet.card
  rw [show (syncIndexAll (syncIndexAll st.chroma docs) docs).idSet =
    (syncIndexAll st.chroma docs).idSet from hids]

/-! ## C2: the tool registry is never attached to the instance -/

/-- C2: dispatching tool calls fails for every tool of the fixed set.  The
registry assignment sits after the unconditional return inside
get_chroma_collection, so `self.tools` never exists and `call_tool` raises
AttributeError — it never reaches the per-tool dispatch, and not only names
outside the fixed set error.  Evaluated on a fresh instance and on an
instance that has served chroma lookups. -/
theorem callTool_always_attribute_failure :
    (MemexInstance.mkInstance "personal").callTool "get-stats" =
      Except.error
        (PyExc.attributeError "MemexInstance object has no attribute tools") ∧
    (fixedToolNames.all (fun name =>
      match (MemexInstance.afterCalls "personal" 3).callTool name with
      | Except.error (PyExc.attributeError _) => true
      | _ => false)) = true := by
  exact ⟨rfl, rfl⟩

/-! ## C4: 413-driven batch splitting delivers everything -/

/-- C4: against a server that answers 413 to every batch larger than k and
accepts smaller ones, the recursive halving of _send_batch delivers every
document of the original batch, reporting zero errors, for every k of at
least one. -/
theorem sendBatch_delivers_all (k : ℕ) (batch : List EdgeDoc) (hk : 1 ≤ k) :
    sendBatch k batch = (batch.length, 0, batch) := by
  have aux : ∀ n (b : List EdgeDoc), b.length ≤ n →
      sendBatch k b = (b.length, 0, b) := by
    intro n
    induction n with
    | zero =>
        intro b hb
        have hb0 : b.length = 0 := Nat.le_zero.mp hb
        rw [sendBatch]
        have hacc : serverAccepts k b = true := by
          simp [serverAccepts]
          omega
        simp [hacc]
    | succ n ih =>
        intro b hb
        rw [sendBatch]
        by_cases hacc : serverAccepts k b = true
        · simp [hacc]
        · have hlen : k < b.length := by
            simpa [serverAccepts] using hacc
          have h1 : 1 < b.length := by omega
          simp only [hacc, Bool.false_eq_true, if_false, h1, dif_pos]
          have e1 : sendBatch k (b.take (b.length / 2)) =
              ((b.take (b.length / 2)).length, 0, b.take (b.length / 2)) := by
            apply ih
            simp only [List.length_take]
            omega
          have e2 : sendBatch k (b.drop (b.length / 2)) =
              ((b.drop (b.length / 2)).length, 0, b.drop (b.length / 2)) := by
            apply ih
            simp only [List.length_drop]
            omega
          simp only [e1, e2]
          refine Prod.ext ?_ (Prod.ext rfl ?_)
          · simp only [List.length_take, List.length_drop]
            omega
          · exact List.take_append_drop _ b
  exact aux batch.length batch le_rfl

theorem sendBatch_delivers_all_witness :
    1 ≤ 4 ∧ sendBatch 4 tenDocs = (tenDocs.length, 0, tenDocs) :=
  ⟨by decide, sendBatch_delivers_all 4 tenDocs (by decide)⟩

end Memex

namespace Memex

/-! ## C5: where the 1 MiB limit actually lives -/

/-- C5 counterexample: a sync POST whose body is 2 MiB is not rejected with
413; it is processed and answered 200, because the sync route has no size
check at all. -/
theorem sync_oversized_body_processed :
    (syncEndpoint bigBodySyncRequest emptySyncState).1.status = 200 ∧
    (200 : ℕ) ≠ 413 := by
  exact ⟨rfl, by decide⟩

/-- C5 amended: only POST mcp enforces the 1 MiB limit, and only from the
Content-Length header: such requests are answered 413 with the body never
parsed (and before authentication); POST sync performs no size check and
never answers 413 whatever the body size. -/
theorem size_limit_only_on_mcp :
    (∀ r : McpRequest, r.instanceKnown = true →
      headerTooLarge r.contentLength = true →
        (mcpEndpoint r).1.status = 413 ∧
        (mcpEndpoint r).2 = [Effect.sizeCheck] ∧
        Effect.parseBody ∉ (mcpEndpoint r).2) ∧
    (∀ (r : SyncRequest) (st : SyncState),
        (syncEndpoint r st).1.status ≠ 413) := by
  constructor
  · intro r hinst hsize
    unfold mcpEndpoint
    simp [hinst, hsize]
  · intro r st
    obtain ⟨ik, cl, bs, ao, ae, pd⟩ := r
    unfold syncEndpoint
    rcases pd with _ | docs <;> split_ifs <;> simp [syncDocuments]

theorem size_limit_only_on_mcp_witness :
    bigBodyMcpRequest.instanceKnown = true ∧
    headerTooLarge bigBodyMcpRequest.contentLength = true ∧
    ((mcpEndpoint bigBodyMcpRequest).1.status = 413 ∧
      (mcpEndpoint bigBodyMcpRequest).2 = [Effect.sizeCheck] ∧
      Effect.parseBody ∉ (mcpEndpoint bigBodyMcpRequest).2) ∧
    (syncEndpoint bigBodySyncRequest emptySyncState).1.status ≠ 413 :=
  ⟨rfl, by decide,
   size_limit_only_on_mcp.1 bigBodyMcpRequest rfl (by decide),
   size_limit_only_on_mcp.2 bigBodySyncRequest emptySyncState⟩

/-! ## C6: record writes are not write-temp-then-rename -/

/-- C6 counterexample: both record writers truncate the destination in
place, so a write failing after the first chunk leaves a partial
`<id>.json` and the previously stored content is gone; neither writer
satisfies the atomic write-temp-then-rename contract the claim states. -/
theorem record_write_not_atomic :
    syncRecordWrite (some "previous") ["fresh-", "half"] 2 = some "fresh-" ∧
    (some "fresh-" : Option String) ≠ some "previous" ∧
    ¬ atomicWriteContract syncRecordWrite ∧
    ¬ atomicWriteContract ocrRecordWrite := by
  refine ⟨by decide, by decide, ?_, ?_⟩
  · intro h
    have h2 := h (some "previous") ["fresh-", "half"] 2 (by decide)
    exact absurd h2 (by decide)
  · intro h
    have h2 := h (some "previous") ["fresh-", "half"] 2 (by decide)
    exact absurd h2 (by decide)

/-- C6 amended: the record writes on both the server sync path and the edge
OCR path are direct truncate-and-write: a completed write stores exactly
the serialized record; a failure before the file is opened leaves the old
content; and any failure after opening leaves the file holding a prefix of
the new serialization (possibly empty), the previous content being lost.
Both writers behave identically. -/
theorem direct_write_behavior (old : Option String) (chunks : List String)
    (n : ℕ) :
    (chunks.length + 1 ≤ n →
      syncRecordWrite old chunks n = some (String.join chunks)) ∧
    (n = 0 → syncRecordWrite old chunks n = old) ∧
    (n ≠ 0 → ∃ j, j ≤ chunks.length ∧
      syncRecordWrite old chunks n = some (String.join (chunks.take j))) ∧
    ocrRecordWrite old chunks n = syncRecordWrite old chunks n := by
  refine ⟨?_, ?_, ?_, rfl⟩
  · intro hn
    unfold syncRecordWrite directFileWrite
    rw [if_neg (by omega)]
    congr 1
    congr 1
    apply List.take_of_length_le
    omega
  · intro hn
    unfold syncRecordWrite directFileWrite
    rw [if_pos hn]
  · intro hn
    unfold syncRecordWrite directFileWrite
    rw [if_neg hn]
    by_cases hj : n - 1 ≤ chunks.length
    · exact ⟨n - 1, hj, rfl⟩
    · refine ⟨chunks.length, le_rfl, ?_⟩
      rw [List.take_of_length_le (by omega), List.take_of_length_le le_rfl]

theorem direct_write_behavior_witness :
    (["a", "b"] : List String).length + 1 ≤ 3 ∧
    syncRecordWrite (some "previous") ["a", "b"] 3 =
      some (String.join ["a", "b"]) :=
  ⟨by decide, (direct_write_behavior (some "previous") ["a", "b"] 3).1
    (by decide)⟩

/-! ## C9: the rate limiter is consulted only on the MCP route -/

/-- C9: no route other than POST mcp ever consults the rate limiter or
answers 429 — sync, sync status, both chat routes, pages and screenshots
are all rate-limit free — and on the MCP route the limiter runs only after
authentication has succeeded: a request failing auth never reaches it. -/
theorem rate_limit_only_on_mcp :
    (∀ (r : SyncRequest) (st : SyncState),
        Effect.rateCheck ∉ (syncEndpoint r st).2.2 ∧
        (syncEndpoint r st).1.status ≠ 429) ∧
    (∀ (r : SyncRequest) (st : SyncState),
        Effect.rateCheck ∉ (syncStatusEndpoint r st).2 ∧
        (syncStatusEndpoint r st).1.status ≠ 429) ∧
    (∀ (perInstance : Bool) (r : ChatRequest),
        Effect.rateCheck ∉ (chatEndpointStatus perInstance r).2 ∧
        (chatEndpointStatus perInstance r).1 ≠ 429) ∧
    (∀ slugSafe pageFound : Bool,
        Effect.rateCheck ∉ (pagesEndpoint slugSafe pageFound).2 ∧
        (pagesEndpoint slugSafe pageFound).1 ≠ 429) ∧
    (∀ nameSafe fileFound : Bool,
        Effect.rateCheck ∉ (screenshotsEndpoint nameSafe fileFound).2 ∧
        (screenshotsEndpoint nameSafe fileFound).1 ≠ 429) ∧
    (∀ r : McpRequest, r.authOk = false →
        Effect.rateCheck ∉ (mcpEndpoint r).2) := by
  refine ⟨?_, ?_, ?_, ?_, ?_, ?_⟩
  · intro r st
    obtain ⟨ik, cl, bs, ao, ae, pd⟩ := r
    unfold syncEndpoint
    rcases pd with _ | docs <;> split_ifs <;> simp [syncDocuments]
  · intro r st
    unfold syncStatusEndpoint
    split_ifs <;> simp
  · intro perInstance r
    unfold chatEndpointStatus
    split_ifs <;> simp
  · intro a b
    unfold pagesEndpoint
    split_ifs <;> simp
  · intro a b
    unfold screenshotsEndpoint
    split_ifs <;> simp
  · intro r hauth
    unfold mcpEndpoint
    by_cases h1 : r.instanceKnown = true
    · by_cases h2 : headerTooLarge r.contentLength = true
      · simp [h1, h2]
      · simp [h1, h2, hauth]
    · simp [h1]

theorem rate_limit_only_on_mcp_witness :
    (Effect.rateCheck ∉ (syncEndpoint bigBodySyncRequest emptySyncState).2.2 ∧
      (syncEndpoint bigBodySyncRequest emptySyncState).1.status ≠ 429) ∧
    unauthMcpRequest.authOk = false ∧
    Effect.rateCheck ∉ (mcpEndpoint unauthMcpRequest).2 :=
  ⟨rate_limit_only_on_mcp.1 bigBodySyncRequest emptySyncState,
   rfl,
   rate_limit_only_on_mcp.2.2.2.2.2 unauthMcpRequest rfl⟩

/-! ## C3: the validator fails closed -/

/-- C3: when the AI validator times out or is unreachable, a tools/call
request is denied: the endpoint answers a JSON-RPC success whose
result.isError is true and whose content carries the non-empty reason
validator_timeout, and the named tool is never invoked.
(The validator component itself is modelled from the spec, its module not
being under src/; the denial path around it is embedded from
prometheus_server.py lines 784 to 801.) -/
theorem validator_fail_closed (r : McpRequest) (body : RpcBody)
    (tool : String)
    (hinst : r.instanceKnown = true)
    (hsize : headerTooLarge r.contentLength = false)
    (hauth : r.authOk = true)
    (hrate : r.rateAllowed = true)
    (hbody : r.parsedBody = some body)
    (hid : body.hasId = true)
    (hmethod : body.method = "tools/call")
    (htool : body.toolName = some tool)
    (hval : r.validator = .timedOut ∨ r.validator = .unreachable) :
    (mcpEndpoint r).1.status = 200 ∧
    (mcpEndpoint r).1.body =
      .rpcToolResult true (denyContent "validator_timeout" tool) ∧
    Effect.toolInvoke ∉ (mcpEndpoint r).2 ∧
    ("validator_timeout" : String) ≠ "" := by
  have hv : validateCall r.validator = (false, "validator_timeout") := by
    rcases hval with h | h <;> rw [h] <;> rfl
  unfold mcpEndpoint
  rw [hbody]
  simp [hinst, hsize, hauth, hrate, hid, hmethod, htool, hv]

theorem validator_fail_closed_witness :
    timeoutMcpRequest.instanceKnown = true ∧
    timeoutMcpRequest.validator = ValidatorOutcome.timedOut ∧
    ((mcpEndpoint timeoutMcpRequest).1.status = 200 ∧
      (mcpEndpoint timeoutMcpRequest).1.body =
        .rpcToolResult true
          (denyContent "validator_timeout" "search-screenshots") ∧
      Effect.toolInvoke ∉ (mcpEndpoint timeoutMcpRequest).2 ∧
      ("validator_timeout" : String) ≠ "") :=
  ⟨rfl, rfl,
   validator_fail_closed timeoutMcpRequest
     { method := "tools/call", hasId := true,
       toolName := some "search-screenshots" }
     "search-screenshots" rfl (by decide) rfl rfl rfl rfl rfl rfl
     (Or.inl rfl)⟩

end Memex
namespace Memex

/-! ## C10: unknown or expired chat sessions -/

theorem alookup_cons (p : String × α) (t : List (String × α)) (k : String) :
    alookup (p :: t) k = if p.1 = k then some p.2 else alookup t k := rfl

theorem alookup_filter_none (l : List (String × ChatSession))
    (q : String × ChatSession → Bool) (k : String)
    (h : alookup l k = none) : alookup (l.filter q) k = none := by
  induction l with
  | nil => rfl
  | cons p t ih =>
      rw [alookup_cons] at h
      by_cases hpk : p.1 = k
      · rw [if_pos hpk] at h
        cases h
      · rw [if_neg hpk] at h
        rw [List.filter_cons]
        by_cases hq : q p = true
        · rw [if_pos hq, alookup_cons, if_neg hpk]
          exact ih h
        · rw [if_neg hq]
          exact ih h

theorem alookup_none_of_not_mem (l : List (String × ChatSession))
    (k : String) (h : k ∉ l.map Prod.fst) : alookup l k = none := by
  induction l with
  | nil => rfl
  | cons p t ih =>
      simp only [List.map_cons, List.mem_cons, not_or] at h
      rw [alookup_cons, if_neg (fun hh => h.1 hh.symm)]
      exact ih h.2

theorem alookup_filter_some (l : List (String × ChatSession))
    (q : String × ChatSession → Bool) (k : String) (v : ChatSession)
    (h : alookup (l.filter q) k = some v) : q (k, v) = true := by
  induction l with
  | nil => cases h
  | cons p t ih =>
      rw [List.filter_cons] at h
      by_cases hq : q p = true
      · rw [if_pos hq, alookup_cons] at h
        by_cases hpk : p.1 = k
        · rw [if_pos hpk] at h
          obtain ⟨p1, p2⟩ := p
          cases h
          subst hpk
          exact hq
        · rw [if_neg hpk] at h
          exact ih h
      · rw [if_neg hq] at h
        exact ih h

theorem alookup_cleanup_none (now : ℚ) (l : List (String × ChatSession))
    (k : String) (hnd : (l.map Prod.fst).Nodup)
    (h : alookup l k = none ∨
         ∃ s, alookup l k = some s ∧ s.expired now = true) :
    alookup (l.filter (fun p => ! (p.2.expired now))) k = none := by
  induction l with
  | nil => rfl
  | cons p t ih =>
      simp only [List.map_cons, List.nodup_cons] at hnd
      rw [List.filter_cons]
      by_cases hpk : p.1 = k
      · rcases h with h | ⟨s, hs, hex⟩
        · rw [alookup_cons, if_pos hpk] at h
          cases h
        · rw [alookup_cons, if_pos hpk] at hs
          have hp2 : p.2 = s := by cases hs; rfl
          have hq : ((! (p.2.expired now)) = true) = False := by
            rw [hp2, hex]
            simp
          rw [if_neg (by rw [hq]; exact not_false)]
          apply alookup_filter_none
          apply alookup_none_of_not_mem
          rw [← hpk]
          exact hnd.1
      · have ht : alookup t k = none ∨
            ∃ s, alookup t k = some s ∧ s.expired now = true := by
          rcases h with h | ⟨s, hs, hex⟩
          · left
            rwa [alookup_cons, if_neg hpk] at h
          · right
            rw [alookup_cons, if_neg hpk] at hs
            exact ⟨s, hs, hex⟩
        by_cases hq : (! (p.2.expired now)) = true
        · rw [if_pos hq, alookup_cons, if_neg hpk]
          exact ih hnd.2 ht
        · rw [if_neg hq]
          exact ih hnd.2 ht

/-- C10: a chat POST whose session_id is unknown, or whose session has been
idle for over an hour (expired sessions being purged at every lookup),
silently gets a fresh session: the handler answers with a stream and no
error, the session used has the newly generated id and an empty history,
the stream's first SSE event reports that new id, the stale id no longer
resolves afterwards, and every session still in the table is either the
fresh one or unexpired. -/
theorem chat_unknown_or_expired_session (now : ℚ) (freshId : String)
    (r : ChatRequest) (t : ChatTable) (sid : String)
    (hinst : r.instanceKnown = true)
    (hmsg : isBlank r.message = false)
    (hsid : r.sessionId = some sid)
    (hnd : (t.sessions.map Prod.fst).Nodup)
    (hsit : alookup t.sessions sid = none ∨
            ∃ s, alookup t.sessions sid = some s ∧ s.expired now = true)
    (hfresh : freshId ≠ sid) :
    ∃ head t', instanceChat now freshId r t = .ok (head, t') ∧
      head.firstEvent = .session freshId ∧
      head.sessionUsed.id = freshId ∧
      head.sessionUsed.messages = [] ∧
      alookup t'.sessions sid = none ∧
      (∀ k s, alookup t'.sessions k = some s →
        k = freshId ∨ s.expired now = false) := by
  have hclean : alookup (cleanupSessions now t).sessions sid = none :=
    alookup_cleanup_none now t.sessions sid hnd hsit
  have hcreate : getOrCreateSession now freshId t (some sid) "instance" =
      (freshSession freshId "instance" now,
       { sessions := (freshId, freshSession freshId "instance" now) ::
           (cleanupSessions now t).sessions }) := by
    by_cases hempty : sid = ""
    · simp [getOrCreateSession, hempty, freshSession]
    · simp [getOrCreateSession, hempty, hclean, freshSession]
  refine ⟨{ firstEvent := .session freshId,
            sessionUsed := freshSession freshId "instance" now },
          { sessions := (freshId, freshSession freshId "instance" now) ::
              (cleanupSessions now t).sessions },
          ?_, rfl, rfl, rfl, ?_, ?_⟩
  · unfold instanceChat
    rw [hsid, if_neg (by simp [hinst]), if_neg (by simp [hmsg]), hcreate]
    rfl
  · rw [alookup_cons, if_neg hfresh]
    exact hclean
  · intro k s hk
    rw [alookup_cons] at hk
    by_cases hkf : freshId = k
    · left
      exact hkf.symm
    · right
      rw [if_neg hkf] at hk
      have := alookup_filter_some _ _ _ _ hk
      simpa using this

theorem chat_unknown_or_expired_session_witness :
    staleChatRequest.instanceKnown = true ∧
    isBlank staleChatRequest.message = false ∧
    staleChatRequest.sessionId = some "stale-session" ∧
    (staleChatTable.sessions.map Prod.fst).Nodup ∧
    (∃ s, alookup staleChatTable.sessions "stale-session" = some s ∧
      s.expired 10000 = true) ∧
    ("fresh-uuid" : String) ≠ "stale-session" ∧
    (∃ head t', instanceChat 10000 "fresh-uuid" staleChatRequest
        staleChatTable = .ok (head, t') ∧
      head.firstEvent = .session "fresh-uuid" ∧
      head.sessionUsed.id = "fresh-uuid" ∧
      head.sessionUsed.messages = [] ∧
      alookup t'.sessions "stale-session" = none ∧
      (∀ k s, alookup t'.sessions k = some s →
        k = "fresh-uuid" ∨ s.expired 10000 = false)) := by
  have hexp : ChatSession.expired 10000
      { id := "stale-session", instanceName := "personal",
        messages := [{ role := "user", content := "earlier" }],
        lastActive := 0 } = true := by
    simp only [ChatSession.expired, decide_eq_true_eq]
    norm_num
  refine ⟨rfl, by decide, rfl, by decide, ?_, by decide, ?_⟩
  · exact ⟨_, rfl, hexp⟩
  · exact chat_unknown_or_expired_session 10000 "fresh-uuid"
      staleChatRequest staleChatTable "stale-session" rfl (by decide) rfl
      (by decide) (Or.inr ⟨_, rfl, hexp⟩) (by decide)

end Memex

namespace Memex

/-! ## C7: date parsing in the time-filtered tools -/

theorem splitOnC_not_mem (c : Char) (s : List Char) (h : c ∉ s) :
    splitOnC c s = [s] := by
  induction s with
  | nil => rfl
  | cons x xs ih =>
      simp only [List.mem_cons, not_or] at h
      unfold splitOnC
      rw [if_neg (fun hh => h.1 hh.symm), ih h.2]

theorem splitOnC_append_cons (c : Char) (xs ys : List Char) (h : c ∉ xs) :
    splitOnC c (xs ++ c :: ys) = xs :: splitOnC c ys := by
  induction xs with
  | nil =>
      show (if c = c then [] :: splitOnC c ys
            else match splitOnC c ys with
                 | [] => [[c]]
                 | p :: ps => (c :: p) :: ps) = [] :: splitOnC c ys
      rw [if_pos rfl]
  | cons x t ih =>
      simp only [List.mem_cons, not_or] at h
      show (if x = c then [] :: splitOnC c (t ++ c :: ys)
            else match splitOnC c (t ++ c :: ys) with
                 | [] => [[x]]
                 | p :: ps => (x :: p) :: ps) =
        (x :: t) :: splitOnC c ys
      rw [if_neg (fun hh => h.1 hh.symm), ih h.2]

theorem optBound_some (f : PyStr → Option PyDT) (s : PyStr) :
    optBound f (some s) =
      match f s with
      | some dt => Except.ok (some dt)
      | none => Except.error () := rfl

theorem fromIso_date_time (dpart tpart : PyStr) (h1 : 'T' ∉ dpart)
    (h2 : 'T' ∉ tpart) :
    fromIsoFormat (dpart ++ 'T' :: tpart) =
      match parseDateC dpart, parseTimeC tpart with
      | some (y, m, dd), some (h, mi, sec) =>
          some { year := y, month := m, day := dd,
                 hour := h, minute := mi, second := sec }
      | _, _ => none := by
  unfold fromIsoFormat
  rw [splitOnC_append_cons _ _ _ h1, splitOnC_not_mem _ _ h2]

theorem fromIso_two_seps (dpart t1 t2 : PyStr) (h1 : 'T' ∉ dpart)
    (h2 : 'T' ∉ t1) (h3 : 'T' ∉ t2) :
    fromIsoFormat (dpart ++ 'T' :: (t1 ++ 'T' :: t2)) = none := by
  unfold fromIsoFormat
  rw [splitOnC_append_cons _ _ _ h1, splitOnC_append_cons _ _ _ h2,
    splitOnC_not_mem _ _ h3]

theorem fromIso_date_only (s : PyStr) (y m d : ℕ) (hT : 'T' ∉ s)
    (hdate : parseDateC s = some (y, m, d)) :
    fromIsoFormat (s ++ chars "T00:00:00") =
        some { year := y, month := m, day := d,
               hour := 0, minute := 0, second := 0 } ∧
    fromIsoFormat (s ++ chars "T23:59:59") =
        some { year := y, month := m, day := d,
               hour := 23, minute := 59, second := 59 } := by
  constructor
  · have e : s ++ chars "T00:00:00" = s ++ 'T' :: chars "00:00:00" := rfl
    rw [e, fromIso_date_time s _ hT (by decide), hdate]
    rfl
  · have e : s ++ chars "T23:59:59" = s ++ 'T' :: chars "23:59:59" := rfl
    rw [e, fromIso_date_time s _ hT (by decide), hdate]
    rfl

/-- C7 amended, part 1: every time-filtered tool accepts a date-only
ISO-8601 input, defaulting the start to T00:00:00 and the end to
T23:59:59 — search-screenshots, sample-time-range, vector-search-windowed
and time-range-summary alike. -/
theorem date_only_inputs_default (s : PyStr) (y m d : ℕ)
    (hT : 'T' ∉ s) (hdate : parseDateC s = some (y, m, d))
    (hrel : isRelativeTime s = false) :
    searchStartBound s =
      some { year := y, month := m, day := d,
             hour := 0, minute := 0, second := 0 } ∧
    searchEndBound s =
      some { year := y, month := m, day := d,
             hour := 23, minute := 59, second := 59 } ∧
    samplingStartBound s =
      .parsed { year := y, month := m, day := d,
                hour := 0, minute := 0, second := 0 } ∧
    samplingEndBound s =
      .parsed { year := y, month := m, day := d,
                hour := 23, minute := 59, second := 59 } ∧
    vectorStartBound s =
      some { year := y, month := m, day := d,
             hour := 0, minute := 0, second := 0 } ∧
    vectorEndBound s =
      some { year := y, month := m, day := d,
             hour := 23, minute := 59, second := 59 } ∧
    activityStartBound s =
      some { year := y, month := m, day := d,
             hour := 0, minute := 0, second := 0 } ∧
    activityEndBound s =
      some { year := y, month := m, day := d,
             hour := 23, minute := 59, second := 59 } ∧
    (∀ b : Bool, searchScreenshotsOutcome b (some s) (some s) =
      .okBounds
        (some { year := y, month := m, day := d,
                hour := 0, minute := 0, second := 0 })
        (some { year := y, month := m, day := d,
                hour := 23, minute := 59, second := 59 })) := by
  obtain ⟨e0, e1⟩ := fromIso_date_only s y m d hT hdate
  have hc : s.contains 'T' = false := by simpa using hT
  have hcount : s.count 'T' = 0 := List.count_eq_zero.mpr hT
  have hs0 : searchStartBound s = some ⟨y, m, d, 0, 0, 0⟩ := e0
  have hs1 : searchEndBound s = some ⟨y, m, d, 23, 59, 59⟩ := e1
  refine ⟨hs0, hs1, ?_, ?_, ?_, ?_, ?_, ?_, ?_⟩
  · unfold samplingStartBound
    rw [if_neg (by simp [hrel]), hc]
    simp only [Bool.false_eq_true, if_false, e0]
  · unfold samplingEndBound
    rw [if_neg (by simp [hrel]), hc]
    simp only [Bool.false_eq_true, if_false, e1]
  · unfold vectorStartBound
    rw [hc]
    simp only [Bool.false_eq_true, if_false, e0]
  · unfold vectorEndBound
    rw [hc]
    simp only [Bool.false_eq_true, if_false, e1]
  · unfold activityStartBound
    rw [if_pos hcount, e0]
  · unfold activityEndBound
    rw [if_pos hcount, e1]
  · intro b
    have hfiles : searchFilesOutcome (some s) (some s) =
        .okBounds (some ⟨y, m, d, 0, 0, 0⟩) (some ⟨y, m, d, 23, 59, 59⟩) := by
      unfold searchFilesOutcome
      rw [optBound_some, optBound_some, hs0, hs1]
    have hchroma : searchChromadbOutcome (some s) (some s) =
        .okBounds (some ⟨y, m, d, 0, 0, 0⟩) (some ⟨y, m, d, 23, 59, 59⟩) := by
      unfold searchChromadbOutcome
      rw [optBound_some, optBound_some, hs0, hs1]
    unfold searchScreenshotsOutcome
    cases b
    · simpa using hfiles
    · simpa using hchroma

theorem date_only_inputs_default_witness :
    ('T' ∉ chars "2026-01-02") ∧
    parseDateC (chars "2026-01-02") = some (2026, 1, 2) ∧
    isRelativeTime (chars "2026-01-02") = false ∧
    (searchStartBound (chars "2026-01-02") =
        some { year := 2026, month := 1, day := 2,
               hour := 0, minute := 0, second := 0 } ∧
      searchEndBound (chars "2026-01-02") =
        some { year := 2026, month := 1, day := 2,
               hour := 23, minute := 59, second := 59 } ∧
      samplingStartBound (chars "2026-01-02") =
        .parsed { year := 2026, month := 1, day := 2,
                  hour := 0, minute := 0, second := 0 } ∧
      samplingEndBound (chars "2026-01-02") =
        .parsed { year := 2026, month := 1, day := 2,
                  hour := 23, minute := 59, second := 59 } ∧
      vectorStartBound (chars "2026-01-02") =
        some { year := 2026, month := 1, day := 2,
               hour := 0, minute := 0, second := 0 } ∧
      vectorEndBound (chars "2026-01-02") =
        some { year := 2026, month := 1, day := 2,
               hour := 23, minute := 59, second := 59 } ∧
      activityStartBound (chars "2026-01-02") =
        some { year := 2026, month := 1, day := 2,
               hour := 0, minute := 0, second := 0 } ∧
      activityEndBound (chars "2026-01-02") =
        some { year := 2026, month := 1, day := 2,
               hour := 23, minute := 59, second := 59 } ∧
      (∀ b : Bool, searchScreenshotsOutcome b (some (chars "2026-01-02"))
          (some (chars "2026-01-02")) =
        .okBounds
          (some { year := 2026, month := 1, day := 2,
                  hour := 0, minute := 0, second := 0 })
          (some { year := 2026, month := 1, day := 2,
                  hour := 23, minute := 59, second := 59 }))) :=
  ⟨by decide, by decide, by decide,
   date_only_inputs_default (chars "2026-01-02") 2026 1 2 (by decide)
     (by decide) (by decide)⟩

theorem time_component_inputs (dpart tpart : PyStr) (dt : PyDT)
    (h1 : 'T' ∉ dpart) (h2 : 'T' ∉ tpart)
    (hiso : fromIsoFormat (dpart ++ 'T' :: tpart) = some dt)
    (hrel : isRelativeTime (dpart ++ 'T' :: tpart) = false) :
    samplingStartBound (dpart ++ 'T' :: tpart) = .parsed dt ∧
    samplingEndBound (dpart ++ 'T' :: tpart) = .parsed dt ∧
    vectorStartBound (dpart ++ 'T' :: tpart) = some dt ∧
    vectorEndBound (dpart ++ 'T' :: tpart) = some dt ∧
    activityStartBound (dpart ++ 'T' :: tpart) = some dt ∧
    activityEndBound (dpart ++ 'T' :: tpart) = some dt ∧
    (∀ (b : Bool) (e : Option PyStr),
      searchScreenshotsOutcome b (some (dpart ++ 'T' :: tpart)) e =
        .errorResult "invalid isoformat string") := by
  have hmem : 'T' ∈ dpart ++ 'T' :: tpart :=
    List.mem_append_right _ (List.mem_cons_self _ _)
  have hc : (dpart ++ 'T' :: tpart).contains 'T' = true := by
    simp
  have hcount : ¬ (dpart ++ 'T' :: tpart).count 'T' = 0 := by
    intro h0
    exact absurd hmem (List.count_eq_zero.mp h0)
  have hsearchS : searchStartBound (dpart ++ 'T' :: tpart) = none := by
    unfold searchStartBound
    have e : (dpart ++ 'T' :: tpart) ++ chars "T00:00:00" =
        dpart ++ 'T' :: (tpart ++ 'T' :: chars "00:00:00") := by
      simp
      rfl
    rw [e, fromIso_two_seps _ _ _ h1 h2 (by decide)]
  have hfiles : ∀ e, searchFilesOutcome (some (dpart ++ 'T' :: tpart)) e =
      .errorResult "invalid isoformat string" := by
    intro e
    unfold searchFilesOutcome
    rw [optBound_some, hsearchS]
  have hchroma : ∀ e, searchChromadbOutcome (some (dpart ++ 'T' :: tpart)) e =
      .errorResult "invalid isoformat string" := by
    intro e
    unfold searchChromadbOutcome
    rw [optBound_some, hsearchS]
    exact hfiles e
  refine ⟨?_, ?_, ?_, ?_, ?_, ?_, ?_⟩
  · unfold samplingStartBound
    rw [if_neg (by simp [hrel]), if_pos hc, hiso]
  · unfold samplingEndBound
    rw [if_neg (by simp [hrel]), if_pos hc, hiso]
  · unfold vectorStartBound
    rw [if_pos hc, hiso]
  · unfold vectorEndBound
    rw [if_pos hc, hiso]
  · unfold activityStartBound
    rw [if_neg hcount, hiso]
  · unfold activityEndBound
    rw [if_neg hcount, hiso]
  · intro b e
    unfold searchScreenshotsOutcome
    cases b
    · simpa using hfiles e
    · simpa using hchroma e

/-- C7 counterexample: search-screenshots does not accept an ISO-8601 input
that includes a time component.  The valid datetime 2026-01-02T10:30:00
(shown parsed by fromisoformat) gets the default time appended regardless,
the concatenation no longer parses, and the tool returns its error dict —
on the ChromaDB path and the file-scan path alike. -/
theorem search_time_component_rejected :
    fromIsoFormat (chars "2026-01-02T10:30:00") =
      some { year := 2026, month := 1, day := 2,
             hour := 10, minute := 30, second := 0 } ∧
    searchScreenshotsOutcome false (some (chars "2026-01-02T10:30:00"))
      none = .errorResult "invalid isoformat string" ∧
    searchScreenshotsOutcome true (some (chars "2026-01-02T10:30:00"))
      none = .errorResult "invalid isoformat string" := by
  refine ⟨by decide, by decide, by decide⟩

/-- C7 amended: every time-filtered tool accepts date-only ISO-8601 inputs,
defaulting the start time to T00:00:00 and the end time to T23:59:59;
time-range-summary, sample-time-range and vector-search-windowed also
accept inputs carrying a time component, parsing them as given; but
search-screenshots appends the default time unconditionally, so a
start/end input that already carries a time component fails to parse
inside the tool and yields its error result instead. -/
theorem time_filter_parsing_amended :
    (∀ (s : PyStr) (y m d : ℕ),
      'T' ∉ s → parseDateC s = some (y, m, d) → isRelativeTime s = false →
      searchStartBound s =
        some { year := y, month := m, day := d,
               hour := 0, minute := 0, second := 0 } ∧
      searchEndBound s =
        some { year := y, month := m, day := d,
               hour := 23, minute := 59, second := 59 } ∧
      samplingStartBound s =
        .parsed { year := y, month := m, day := d,
                  hour := 0, minute := 0, second := 0 } ∧
      samplingEndBound s =
        .parsed { year := y, month := m, day := d,
                  hour := 23, minute := 59, second := 59 } ∧
      vectorStartBound s =
        some { year := y, month := m, day := d,
               hour := 0, minute := 0, second := 0 } ∧
      vectorEndBound s =
        some { year := y, month := m, day := d,
               hour := 23, minute := 59, second := 59 } ∧
      activityStartBound s =
        some { year := y, month := m, day := d,
               hour := 0, minute := 0, second := 0 } ∧
      activityEndBound s =
        some { year := y, month := m, day := d,
               hour := 23, minute := 59, second := 59 } ∧
      (∀ b : Bool, searchScreenshotsOutcome b (some s) (some s) =
        .okBounds
          (some { year := y, month := m, day := d,
                  hour := 0, minute := 0, second := 0 })
          (some { year := y, month := m, day := d,
                  hour := 23, minute := 59, second := 59 }))) ∧
    (∀ (dpart tpart : PyStr) (dt : PyDT),
      'T' ∉ dpart → 'T' ∉ tpart →
      fromIsoFormat (dpart ++ 'T' :: tpart) = some dt →
      isRelativeTime (dpart ++ 'T' :: tpart) = false →
      samplingStartBound (dpart ++ 'T' :: tpart) = .parsed dt ∧
      samplingEndBound (dpart ++ 'T' :: tpart) = .parsed dt ∧
      vectorStartBound (dpart ++ 'T' :: tpart) = some dt ∧
      vectorEndBound (dpart ++ 'T' :: tpart) = some dt ∧
      activityStartBound (dpart ++ 'T' :: tpart) = some dt ∧
      activityEndBound (dpart ++ 'T' :: tpart) = some dt ∧
      (∀ (b : Bool) (e : Option PyStr),
        searchScreenshotsOutcome b (some (dpart ++ 'T' :: tpart)) e =
          .errorResult "invalid isoformat string")) :=
  ⟨date_only_inputs_default, time_component_inputs⟩

theorem time_filter_parsing_amended_witness :
    ('T' ∉ chars "2026-01-02") ∧
    parseDateC (chars "2026-01-02") = some (2026, 1, 2) ∧
    fromIsoFormat (chars "2026-01-02" ++ 'T' :: chars "10:30:00") =
      some { year := 2026, month := 1, day := 2,
             hour := 10, minute := 30, second := 0 } ∧
    searchStartBound (chars "2026-01-02") =
      some { year := 2026, month := 1, day := 2,
             hour := 0, minute := 0, second := 0 } ∧
    samplingStartBound (chars "2026-01-02" ++ 'T' :: chars "10:30:00") =
      .parsed { year := 2026, month := 1, day := 2,
                hour := 10, minute := 30, second := 0 } ∧
    (∀ (b : Bool) (e : Option PyStr),
      searchScreenshotsOutcome b
        (some (chars "2026-01-02" ++ 'T' :: chars "10:30:00")) e =
        .errorResult "invalid isoformat string") :=
  ⟨by decide, by decide, by decide,
   (time_filter_parsing_amended.1 (chars "2026-01-02") 2026 1 2 (by decide)
     (by decide) (by decide)).1,
   (time_filter_parsing_amended.2 (chars "2026-01-02") (chars "10:30:00")
     { year := 2026, month := 1, day := 2,
       hour := 10, minute := 30, second := 0 }
     (by decide) (by decide) (by decide) (by decide)).1,
   (time_filter_parsing_amended.2 (chars "2026-01-02") (chars "10:30:00")
     { year := 2026, month := 1, day := 2,
       hour := 10, minute := 30, second := 0 }
     (by decide) (by decide) (by decide) (by decide)).2.2.2.2.2.2⟩


/-! ## C8: search-recent-relevant scoring, filtering and deduplication -/

theorem distLE_trans : ∀ x y z : CDoc,
    distLE x y = true → distLE y z = true → distLE x z = true := by
  intro x y z hxy hyz
  simp only [distLE, decide_eq_true_eq] at *
  exact le_trans hxy hyz

theorem distLE_total : ∀ x y : CDoc, (distLE x y || distLE y x) = true := by
  intro x y
  simp only [distLE, Bool.or_eq_true, decide_eq_true_eq]
  exact le_total x.dist y.dist

theorem queryWindow_sorted (col : List CDoc) (k : ℕ) (st : ℚ) :
    (queryWindow col k st).Pairwise (fun x y => x.dist ≤ y.dist) := by
  have hs := @List.sorted_mergeSort CDoc distLE distLE_trans distLE_total
    (col.filter (fun d => decide (st ≤ d.tsNum)))
  have ht := List.Pairwise.sublist (List.take_sublist k _) hs
  exact ht.imp (fun h => by simpa [distLE] using h)

theorem queryWindow_subset (col : List CDoc) (k : ℕ) (st : ℚ) (d : CDoc)
    (hd : d ∈ queryWindow col k st) : d ∈ col ∧ st ≤ d.tsNum := by
  have h1 : d ∈ (col.filter (fun d => decide (st ≤ d.tsNum))).mergeSort distLE :=
    (List.take_sublist k _).subset hd
  have h2 : d ∈ col.filter (fun d => decide (st ≤ d.tsNum)) :=
    (List.mergeSort_perm _ distLE).mem_iff.mp h1
  have h3 := List.mem_filter.mp h2
  exact ⟨h3.1, by simpa using h3.2⟩

theorem mem_queryWindow_of (col : List CDoc) (_k : ℕ) (st : ℚ) (d : CDoc)
    (hcol : d ∈ col) (hts : st ≤ d.tsNum) :
    d ∈ (col.filter (fun d => decide (st ≤ d.tsNum))).mergeSort distLE := by
  rw [(List.mergeSort_perm _ distLE).mem_iff]
  exact List.mem_filter.mpr ⟨hcol, by simpa using hts⟩

theorem windowScored_subset (a : RSearchArgs) (now : ℚ) (col : List CDoc)
    (days : ℕ) (d : CDoc) (hd : d ∈ windowScored a now col days) :
    d ∈ col ∧ (now - days * 86400) ≤ d.tsNum ∧
      a.minScore ≤ combinedScore a now d := by
  have h1 := List.mem_filter.mp hd
  have h2 := queryWindow_subset col (a.maxResults * 2) (now - days * 86400) d h1.1
  exact ⟨h2.1, h2.2, by simpa using h1.2⟩

theorem windowScored_sorted (a : RSearchArgs) (now : ℚ) (col : List CDoc)
    (days : ℕ) :
    (windowScored a now col days).Pairwise (fun x y => x.dist ≤ y.dist) :=
  List.Pairwise.sublist (List.filter_sublist _)
    (queryWindow_sorted col (a.maxResults * 2) (now - days * 86400))

theorem sorted_take_drop_le (l : List CDoc) (k : ℕ)
    (hl : l.Pairwise (fun x y => x.dist ≤ y.dist)) (x y : CDoc)
    (hx : x ∈ l.take k) (hy : y ∈ l.drop k) : x.dist ≤ y.dist := by
  have := (List.take_append_drop k l) ▸ hl
  exact ((List.pairwise_append.mp this).2.2) x hx y hy

theorem find?_first_min (l : List CDoc) (p : CDoc → Bool)
    (hl : l.Pairwise (fun x y => x.dist ≤ y.dist)) (r : CDoc)
    (hf : l.find? p = some r) :
    ∀ s ∈ l, p s = true → r.dist ≤ s.dist := by
  induction l with
  | nil => cases hf
  | cons x xs ih =>
      rcases List.pairwise_cons.mp hl with ⟨hx, hxs⟩
      by_cases hp : p x = true
      · rw [List.find?_cons_of_pos _ hp] at hf
        cases hf
        intro s hs _
        rcases List.mem_cons.mp hs with h | h
        · rw [h]
        · exact hx s h
      · rw [List.find?_cons_of_neg _ hp] at hf
        intro s hs hps
        rcases List.mem_cons.mp hs with h | h
        · rw [h] at hps
          exact absurd hps hp
        · exact ih hxs hf s h hps

theorem combinedScore_mono (a : RSearchArgs) (now : ℚ)
    (hw : a.recencyWeight ≤ 1) (r s : CDoc) (hval : s.tsVal = r.tsVal)
    (hd : r.dist ≤ s.dist) :
    combinedScore a now s ≤ combinedScore a now r := by
  unfold combinedScore
  rw [hval]
  have hrel : relevanceScore s ≤ relevanceScore r := by
    unfold relevanceScore
    exact max_le_max le_rfl (by linarith)
  have h1 : (0 : ℚ) ≤ 1 - a.recencyWeight := by linarith
  exact add_le_add_right (mul_le_mul_of_nonneg_right hrel h1) _

theorem window_find_max (a : RSearchArgs) (now : ℚ) (col : List CDoc)
    (hcons : keyConsistent col) (hw : a.recencyWeight ≤ 1)
    (d d' : ℕ) (_hdd : d ≤ d') (κ : String) (r s : CDoc)
    (hfind : (windowScored a now col d).find? (fun x => x.tsKey == κ) = some r)
    (hs : s ∈ windowScored a now col d') (hkey : s.tsKey = κ) :
    combinedScore a now s ≤ combinedScore a now r := by
  have hrW : r ∈ windowScored a now col d := List.mem_of_find?_eq_some hfind
  have hrkey : r.tsKey = κ := by
    have := List.find?_some hfind
    simpa using this
  obtain ⟨hrcol, hrts, hrsc⟩ := windowScored_subset a now col d r hrW
  obtain ⟨hscol, _, _⟩ := windowScored_subset a now col d' s hs
  have hsame := hcons s hscol r hrcol (by rw [hkey, hrkey])
  have hsts : (now - d * 86400) ≤ s.tsNum := by
    rw [hsame.2]
    exact hrts
  have hsL : s ∈ (col.filter
      (fun x => decide ((now - d * 86400) ≤ x.tsNum))).mergeSort distLE :=
    mem_queryWindow_of col (a.maxResults * 2) (now - d * 86400) s hscol hsts
  have hLsorted : ((col.filter
      (fun x => decide ((now - d * 86400) ≤ x.tsNum))).mergeSort
        distLE).Pairwise (fun x y => x.dist ≤ y.dist) := by
    have := @List.sorted_mergeSort CDoc distLE distLE_trans distLE_total
      (col.filter (fun x => decide ((now - d * 86400) ≤ x.tsNum)))
    exact this.imp (fun h => by simpa [distLE] using h)
  rw [← List.take_append_drop (a.maxResults * 2)
    ((col.filter (fun x => decide ((now - d * 86400) ≤ x.tsNum))).mergeSort
      distLE)] at hsL
  rcases List.mem_append.mp hsL with htake | hdrop
  · by_cases hsc : a.minScore ≤ combinedScore a now s
    · have hsW : s ∈ windowScored a now col d := by
        unfold windowScored queryWindow
        exact List.mem_filter.mpr ⟨htake, by simpa using hsc⟩
      have hds := find?_first_min (windowScored a now col d) _
        (windowScored_sorted a now col d) r hfind s hsW
        (by simp [hkey])
      exact combinedScore_mono a now hw r s hsame.1 hds
    · have : combinedScore a now s < a.minScore := lt_of_not_ge hsc
      linarith
  · have hrtake : r ∈ ((col.filter
        (fun x => decide ((now - d * 86400) ≤ x.tsNum))).mergeSort
          distLE).take (a.maxResults * 2) := by
      have : r ∈ queryWindow col (a.maxResults * 2) (now - d * 86400) :=
        (List.mem_filter.mp hrW).1
      exact this
    have hds : r.dist ≤ s.dist :=
      sorted_take_drop_le _ (a.maxResults * 2) hLsorted r s hrtake hdrop
    exact combinedScore_mono a now hw r s hsame.1 hds

theorem find?_append_cases (l₁ l₂ : List CDoc) (p : CDoc → Bool) (r : CDoc)
    (h : (l₁ ++ l₂).find? p = some r) :
    l₁.find? p = some r ∨ (l₁.find? p = none ∧ l₂.find? p = some r) := by
  induction l₁ with
  | nil => exact Or.inr ⟨rfl, h⟩
  | cons x xs ih =>
      by_cases hp : p x = true
      · rw [List.cons_append, List.find?_cons_of_pos _ hp] at h
        left
        rw [List.find?_cons_of_pos _ hp]
        exact h
      · rw [List.cons_append, List.find?_cons_of_neg _ hp] at h
        rcases ih h with h1 | ⟨h1, h2⟩
        · left
          rw [List.find?_cons_of_neg _ hp]
          exact h1
        · right
          rw [List.find?_cons_of_neg _ hp]
          exact ⟨h1, h2⟩

theorem flat_find_max (a : RSearchArgs) (now : ℚ) (col : List CDoc)
    (hcons : keyConsistent col) (hw : a.recencyWeight ≤ 1) :
    ∀ (ws : List ℕ), ws.Pairwise (· ≤ ·) → ∀ (κ : String) (r s : CDoc),
      ((ws.map (windowScored a now col)).flatten).find?
        (fun x => x.tsKey == κ) = some r →
      s ∈ (ws.map (windowScored a now col)).flatten → s.tsKey = κ →
      combinedScore a now s ≤ combinedScore a now r := by
  intro ws
  induction ws with
  | nil =>
      intro _ κ r s hf _ _
      cases hf
  | cons d ws' ih =>
      intro hpw κ r s hf hsmem hkey
      rcases List.pairwise_cons.mp hpw with ⟨hd, hpw'⟩
      rw [List.map_cons, List.flatten_cons] at hf hsmem
      rcases find?_append_cases _ _ _ _ hf with h1 | ⟨h1, h2⟩
      · rcases List.mem_append.mp hsmem with hsw | hsrest
        · exact window_find_max a now col hcons hw d d le_rfl κ r s h1 hsw hkey
        · obtain ⟨l, hl, hsl⟩ := List.mem_flatten.mp hsrest
          obtain ⟨d', hd', hld⟩ := List.mem_map.mp hl
          rw [← hld] at hsl
          exact window_find_max a now col hcons hw d d' (hd d' hd') κ r s h1
            hsl hkey
      · rcases List.mem_append.mp hsmem with hsw | hsrest
        · exfalso
          have := List.find?_eq_none.mp h1 s hsw
          simp [hkey] at this
        · exact ih hpw' κ r s h2 hsrest hkey

theorem searchLoop_succ (a : RSearchArgs) (now : ℚ) (col : List CDoc)
    (fuel cd : ℕ) (acc : List CDoc) :
    searchLoop a now col (fuel + 1) cd acc =
      if cd ≤ a.maxDays ∧ acc.length < a.maxResults then
        (if a.maxResults ≤ (acc ++ windowScored a now col cd).length
         then acc ++ windowScored a now col cd
         else searchLoop a now col fuel (nextDays a cd)
           (acc ++ windowScored a now col cd))
      else acc := rfl

theorem nextDays_ge (a : RSearchArgs) (cd : ℕ) (h : cd ≤ a.maxDays) :
    cd ≤ nextDays a cd := by
  unfold nextDays
  split_ifs with h1 <;> omega

theorem searchLoop_shape (a : RSearchArgs) (now : ℚ) (col : List CDoc) :
    ∀ (fuel cd : ℕ) (acc : List CDoc), ∃ ws : List ℕ,
      searchLoop a now col fuel cd acc =
        acc ++ (ws.map (windowScored a now col)).flatten ∧
      ws.Pairwise (· ≤ ·) ∧ ∀ d ∈ ws, cd ≤ d := by
  intro fuel
  induction fuel with
  | zero =>
      intro cd acc
      exact ⟨[], by simp [searchLoop], by simp, by simp⟩
  | succ n ih =>
      intro cd acc
      rw [searchLoop_succ]
      by_cases hcond : cd ≤ a.maxDays ∧ acc.length < a.maxResults
      · rw [if_pos hcond]
        by_cases hbreak :
            a.maxResults ≤ (acc ++ windowScored a now col cd).length
        · rw [if_pos hbreak]
          exact ⟨[cd], by simp, by simp, by simp⟩
        · rw [if_neg hbreak]
          obtain ⟨ws', heq, hpw, hge⟩ :=
            ih (nextDays a cd) (acc ++ windowScored a now col cd)
          refine ⟨cd :: ws', ?_, ?_, ?_⟩
          · rw [heq]
            simp [List.append_assoc]
          · exact List.pairwise_cons.mpr
              ⟨fun d hd => le_trans (nextDays_ge a cd hcond.1) (hge d hd), hpw⟩
          · intro d hd
            rcases List.mem_cons.mp hd with h | h
            · omega
            · exact le_trans (nextDays_ge a cd hcond.1) (hge d h)
      · rw [if_neg hcond]
        exact ⟨[], by simp, by simp, by simp⟩

theorem dedupGo_cons (seen : List String) (x : CDoc) (xs : List CDoc) :
    dedupGo seen (x :: xs) =
      if x.tsKey ∈ seen then dedupGo seen xs
      else x :: dedupGo (x.tsKey :: seen) xs := rfl

theorem dedupGo_subset (seen : List String) (l : List CDoc) (r : CDoc)
    (h : r ∈ dedupGo seen l) : r ∈ l := by
  induction l generalizing seen with
  | nil => cases h
  | cons x xs ih =>
      rw [dedupGo_cons] at h
      by_cases hx : x.tsKey ∈ seen
      · rw [if_pos hx] at h
        exact List.mem_cons_of_mem x (ih seen h)
      · rw [if_neg hx] at h
        rcases List.mem_cons.mp h with h1 | h1
        · rw [h1]
          exact List.mem_cons_self x xs
        · exact List.mem_cons_of_mem x (ih _ h1)

theorem dedupGo_find (seen : List String) (l : List CDoc) (r : CDoc)
    (h : r ∈ dedupGo seen l) :
    r.tsKey ∉ seen ∧ l.find? (fun x => x.tsKey == r.tsKey) = some r := by
  induction l generalizing seen with
  | nil => cases h
  | cons x xs ih =>
      rw [dedupGo_cons] at h
      by_cases hx : x.tsKey ∈ seen
      · rw [if_pos hx] at h
        obtain ⟨hns, hfind⟩ := ih seen h
        have hne : ¬ (x.tsKey == r.tsKey) = true := by
          intro hb
          exact hns (by rwa [← (by simpa using hb : x.tsKey = r.tsKey)])
        refine ⟨hns, ?_⟩
        rw [@List.find?_cons_of_neg CDoc (fun y => y.tsKey == r.tsKey) x xs hne]
        exact hfind
      · rw [if_neg hx] at h
        rcases List.mem_cons.mp h with h1 | h1
        · subst h1
          refine ⟨hx, ?_⟩
          rw [@List.find?_cons_of_pos CDoc (fun y => y.tsKey == r.tsKey) r xs
            (by simp)]
        · obtain ⟨hns, hfind⟩ := ih (x.tsKey :: seen) h1
          simp only [List.mem_cons, not_or] at hns
          have hne : ¬ (x.tsKey == r.tsKey) = true := by
            intro hb
            exact hns.1 ((by simpa using hb : x.tsKey = r.tsKey)).symm
          refine ⟨hns.2, ?_⟩
          rw [@List.find?_cons_of_neg CDoc (fun y => y.tsKey == r.tsKey) x xs
            hne]
          exact hfind

theorem dedupGo_key_nodup (seen : List String) (l : List CDoc) :
    ((dedupGo seen l).map (fun r => r.tsKey)).Nodup := by
  induction l generalizing seen with
  | nil => simp [dedupGo]
  | cons x xs ih =>
      rw [dedupGo_cons]
      by_cases hx : x.tsKey ∈ seen
      · rw [if_pos hx]
        exact ih seen
      · rw [if_neg hx]
        rw [List.map_cons, List.nodup_cons]
        constructor
        · intro hmem
          obtain ⟨r, hr, hkey⟩ := List.mem_map.mp hmem
          have := (dedupGo_find _ _ _ hr).1
          simp only [List.mem_cons, not_or] at this
          exact this.1 hkey
        · exact ih (x.tsKey :: seen)

theorem recencyScore_eq_spec (maxDays : ℕ) (hmax : 1 ≤ maxDays) (now t : ℚ)
    (hage : 0 ≤ now - t) :
    recencyScore maxDays now (some t) = specRecency maxDays now t := by
  have hq : 0 ≤ (now - t) / 86400 := by positivity
  have hmax' : (0 : ℚ) < maxDays := by
    exact_mod_cast Nat.pos_of_ne_zero (by omega)
  show (if (now - t) / 86400 < 0 then 1
        else if (maxDays : ℚ) < (now - t) / 86400 then 0
        else 1 - ((now - t) / 86400) / maxDays) = specRecency maxDays now t
  rw [if_neg (not_lt.mpr hq)]
  unfold specRecency
  by_cases hbig : (maxDays : ℚ) < (now - t) / 86400
  · rw [if_pos hbig]
    have h1 : (1 : ℚ) < ((now - t) / 86400) / maxDays :=
      (one_lt_div hmax').mpr hbig
    rw [max_eq_left (by linarith)]
  · rw [if_neg hbig]
    have h1 : ((now - t) / 86400) / maxDays ≤ 1 :=
      (div_le_one hmax').mpr (not_lt.mp hbig)
    rw [max_eq_right (by linarith)]

theorem mem_allResults (a : RSearchArgs) (now : ℚ) (col : List CDoc)
    (fuel : ℕ) (r : CDoc) (hr : r ∈ allResults a now col fuel) :
    r ∈ col ∧ a.minScore ≤ combinedScore a now r := by
  obtain ⟨ws, heq, _, _⟩ := searchLoop_shape a now col fuel a.initialDays []
  rw [allResults, heq, List.nil_append] at hr
  obtain ⟨l, hl, hrl⟩ := List.mem_flatten.mp hr
  obtain ⟨d, _, hld⟩ := List.mem_map.mp hl
  rw [← hld] at hrl
  obtain ⟨h1, _, h3⟩ := windowScored_subset a now col d r hrl
  exact ⟨h1, h3⟩

theorem final_mem_dedup (a : RSearchArgs) (now : ℚ) (col : List CDoc)
    (fuel : ℕ) (r : CDoc) (hr : r ∈ finalResults a now col fuel) :
    r ∈ dedupGo [] (allResults a now col fuel) := by
  unfold finalResults at hr
  exact (List.mergeSort_perm _ (combGE a now)).mem_iff.mp
    ((List.take_sublist _ _).subset hr)


/-- C8 amended: in search-recent-relevant, every returned result scores
combined = relevance times (1 - recency_weight) plus recency times
recency_weight, where relevance = max(0, 1 - distance) and — for a
parseable, non-future timestamp — recency = max(0, 1 - age_days /
max_age_days) exactly as the spec words it (a future timestamp clamps to
1.0 and an unparseable one scores 0.5); every candidate below min_score is
dropped; at most one result is returned per timestamp string; and, for a
metadata-consistent collection and recency_weight at most 1, the returned
one scores at least every accumulated candidate sharing its timestamp
(the final cut to max_results may still drop a timestamp entirely). -/
theorem recent_search_scoring (a : RSearchArgs) (now : ℚ) (col : List CDoc)
    (fuel : ℕ) (hcons : keyConsistent col) (hw : a.recencyWeight ≤ 1)
    (hmax : 1 ≤ a.maxDays) :
    (∀ r ∈ finalResults a now col fuel,
      combinedScore a now r =
        relevanceScore r * (1 - a.recencyWeight) +
          recencyScore a.maxDays now r.tsVal * a.recencyWeight) ∧
    (∀ r ∈ finalResults a now col fuel, ∀ t, r.tsVal = some t →
      0 ≤ now - t →
      combinedScore a now r = specCombinedScore a now r t) ∧
    (∀ r ∈ finalResults a now col fuel, a.minScore ≤ combinedScore a now r) ∧
    ((finalResults a now col fuel).map (fun r => r.tsKey)).Nodup ∧
    (∀ r ∈ finalResults a now col fuel, ∀ s ∈ allResults a now col fuel,
      s.tsKey = r.tsKey → combinedScore a now s ≤ combinedScore a now r) := by
  refine ⟨?_, ?_, ?_, ?_, ?_⟩
  · intro r _
    rfl
  · intro r _ t ht hage
    unfold combinedScore specCombinedScore
    rw [ht, recencyScore_eq_spec a.maxDays hmax now t hage]
  · intro r hr
    exact (mem_allResults a now col fuel r
      (dedupGo_subset [] _ r (final_mem_dedup a now col fuel r hr))).2
  · have h1 := dedupGo_key_nodup [] (allResults a now col fuel)
    have h2 : (((dedupGo [] (allResults a now col fuel)).mergeSort
        (combGE a now)).map (fun r => r.tsKey)).Nodup :=
      (((List.mergeSort_perm _ (combGE a now))).map _).nodup_iff.mpr h1
    exact List.Nodup.sublist
      ((List.take_sublist a.maxResults _).map _) h2
  · intro r hr s hs hkey
    obtain ⟨ws, heq, hpw, _⟩ := searchLoop_shape a now col fuel a.initialDays []
    have hd := final_mem_dedup a now col fuel r hr
    have hfind := (dedupGo_find [] _ r hd).2
    have heq' : allResults a now col fuel =
        (ws.map (windowScored a now col)).flatten := by
      rw [allResults, heq, List.nil_append]
    rw [heq'] at hfind hs
    exact flat_find_max a now col hcons hw ws hpw r.tsKey r s hfind hs hkey

theorem recent_search_scoring_witness :
    keyConsistent [cdocF] ∧ cfgF.recencyWeight ≤ 1 ∧ 1 ≤ cfgF.maxDays ∧
    ((finalResults cfgF 0 [cdocF] 1).map (fun r => r.tsKey)).Nodup ∧
    (∀ r ∈ finalResults cfgF 0 [cdocF] 1,
      cfgF.minScore ≤ combinedScore cfgF 0 r) := by
  have hcons : keyConsistent [cdocF] := by
    intro x hx y hy _
    rw [List.mem_singleton] at hx hy
    rw [hx, hy]
    exact ⟨rfl, rfl⟩
  have hw : cfgF.recencyWeight ≤ 1 := by norm_num [cfgF]
  have hmax : 1 ≤ cfgF.maxDays := by norm_num [cfgF]
  have h := recent_search_scoring cfgF 0 [cdocF] 1 hcons hw hmax
  exact ⟨hcons, hw, hmax, h.2.2.2.1, h.2.2.1⟩


theorem windowScored_cfgF : windowScored cfgF 0 [cdocF] 7 = [cdocF] := by
  unfold windowScored queryWindow
  have hfil : [cdocF].filter
      (fun d => decide ((0 : ℚ) - (7 : ℕ) * 86400 ≤ d.tsNum)) = [cdocF] := by
    simp only [List.filter_cons, List.filter_nil, decide_eq_true_eq]
    rw [if_pos (by norm_num [cdocF])]
  rw [hfil, List.mergeSort_singleton]
  have hcomb : combinedScore cfgF 0 cdocF = 1 := by
    simp only [combinedScore, relevanceScore, recencyScore, cfgF, cdocF]
    norm_num
  simp only [List.take, List.filter_cons, List.filter_nil, hcomb,
    decide_eq_true_eq]
  rw [if_pos (by norm_num [cfgF])]

theorem combinedScore_cfgF : combinedScore cfgF 0 cdocF = 1 := by
  simp only [combinedScore, relevanceScore, recencyScore, cfgF, cdocF]
  norm_num

theorem specCombined_cfgF : specCombinedScore cfgF 0 cdocF 86400 = 181 / 180 := by
  simp only [specCombinedScore, specRecency, relevanceScore, cfgF, cdocF]
  norm_num

theorem finalResults_cfgF : finalResults cfgF 0 [cdocF] 1 = [cdocF] := by
  have hall : allResults cfgF 0 [cdocF] 1 = [cdocF] := by
    rw [allResults, show cfgF.initialDays = 7 from rfl, searchLoop_succ,
      if_pos (by norm_num [cfgF] : (7 : ℕ) ≤ cfgF.maxDays ∧
        ([] : List CDoc).length < cfgF.maxResults)]
    rw [List.nil_append, windowScored_cfgF,
      if_pos (by norm_num [cfgF] : cfgF.maxResults ≤ [cdocF].length)]
  have hded : dedupGo [] [cdocF] = [cdocF] := by
    rw [dedupGo_cons, if_neg (List.not_mem_nil _)]
    rfl
  rw [finalResults, hall, hded, List.mergeSort_singleton]
  rfl

theorem combinedScore_cfgT_A : combinedScore cfgT 1000000 cdocA = 1 := by
  simp only [combinedScore, relevanceScore, cfgT, cdocA]
  norm_num

theorem combinedScore_cfgT_B : combinedScore cfgT 1000000 cdocB = 1 / 2 := by
  simp only [combinedScore, relevanceScore, cfgT, cdocB]
  norm_num

theorem windowScored_cfgT :
    windowScored cfgT 1000000 [cdocA, cdocB] 7 = [cdocA, cdocB] := by
  unfold windowScored queryWindow
  have hfil : [cdocA, cdocB].filter
      (fun d => decide ((1000000 : ℚ) - (7 : ℕ) * 86400 ≤ d.tsNum)) =
      [cdocA, cdocB] := by
    simp only [List.filter_cons, List.filter_nil, decide_eq_true_eq]
    rw [if_pos (by norm_num [cdocA]), if_pos (by norm_num [cdocB])]
  have hsorted : [cdocA, cdocB].Pairwise (fun x y => distLE x y = true) := by
    refine List.pairwise_cons.mpr ⟨?_, List.pairwise_singleton _ _⟩
    intro y hy
    rw [List.mem_singleton] at hy
    rw [hy]
    simp only [distLE, cdocA, cdocB, decide_eq_true_eq]
    norm_num
  rw [hfil, List.mergeSort_of_sorted hsorted]
  simp only [List.take, List.filter_cons, List.filter_nil,
    combinedScore_cfgT_A, combinedScore_cfgT_B, decide_eq_true_eq]
  rw [if_pos (by norm_num [cfgT]), if_pos (by norm_num [cfgT])]

theorem allResults_cfgT :
    allResults cfgT 1000000 [cdocA, cdocB] 1 = [cdocA, cdocB] := by
  rw [allResults, show cfgT.initialDays = 7 from rfl, searchLoop_succ,
    if_pos (by norm_num [cfgT] : (7 : ℕ) ≤ cfgT.maxDays ∧
      ([] : List CDoc).length < cfgT.maxResults)]
  rw [List.nil_append, windowScored_cfgT,
    if_pos (by norm_num [cfgT] : cfgT.maxResults ≤ [cdocA, cdocB].length)]

theorem finalResults_cfgT :
    finalResults cfgT 1000000 [cdocA, cdocB] 1 = [cdocA] := by
  have hded : dedupGo [] [cdocA, cdocB] = [cdocA, cdocB] := by
    rw [dedupGo_cons, if_neg (List.not_mem_nil _), dedupGo_cons,
      if_neg (by decide : ¬ cdocB.tsKey ∈ [cdocA.tsKey])]
    rfl
  have hsorted : [cdocA, cdocB].Pairwise
      (fun x y => combGE cfgT 1000000 x y = true) := by
    refine List.pairwise_cons.mpr ⟨?_, List.pairwise_singleton _ _⟩
    intro y hy
    rw [List.mem_singleton] at hy
    rw [hy]
    simp only [combGE, combinedScore_cfgT_A, combinedScore_cfgT_B,
      decide_eq_true_eq]
    norm_num
  rw [finalResults, allResults_cfgT, hded, List.mergeSort_of_sorted hsorted]
  rfl

/-- C8 counterexample: the claim fails on the code in two ways.  First, a
candidate whose timestamp lies in the future of the query clock is
returned with combined score 1 — the code clamps recency at 1.0 — while
the claimed formula relevance(1-w) + (1 - age_days/max_age_days)w gives
181/180.  Second, with two candidates of distinct timestamps and
max_results 1, the candidate with timestamp key kb stays above min_score
and is accumulated, yet no result with its timestamp is returned at all —
not (exactly) one. -/
theorem recent_search_claim_fails :
    cdocF ∈ finalResults cfgF 0 [cdocF] 1 ∧
    cdocF.tsVal = some 86400 ∧
    combinedScore cfgF 0 cdocF = 1 ∧
    specCombinedScore cfgF 0 cdocF 86400 = 181 / 180 ∧
    (1 : ℚ) ≠ 181 / 180 ∧
    cdocB ∈ allResults cfgT 1000000 [cdocA, cdocB] 1 ∧
    cfgT.minScore ≤ combinedScore cfgT 1000000 cdocB ∧
    finalResults cfgT 1000000 [cdocA, cdocB] 1 = [cdocA] ∧
    cdocA.tsKey ≠ cdocB.tsKey := by
  refine ⟨?_, rfl, combinedScore_cfgF, specCombined_cfgF, by norm_num, ?_,
    ?_, finalResults_cfgT, by decide⟩
  · rw [finalResults_cfgF]
    exact List.mem_singleton.mpr rfl
  · rw [allResults_cfgT]
    simp
  · rw [combinedScore_cfgT_B]
    norm_num [cfgT]

end Memex
